import Mathlib

/-!
Verification of the horse-ml-handicapping ingestion pipeline.

This file is a shallow embedding, in Lean 4, of the parsing / normalization /
staging-write core of the repository:

* `src/hhml/utils.py`                (safe_int, safe_float, fingerprint via sha1)
* `src/hhml/ingest/utils.py`         (safe_int, safe_float, fingerprint via md5)
* `src/hhml/ingest/chart_xml.py`     (chart extractor and staging writer)
* `src/hhml/ingest/pp_xml.py`        (past-performance extractor)

Modelling conventions:

* Python strings are Lean `String`s (scanners work over `List Char`);
  Python `None`-able values are `Option`.
* Python numbers: `int` is `Int`; `float` is modelled by `PyFloat`
  (an exact rational plus infinities / nan).  All float arithmetic reached by
  the verified claims is exact in binary floating point, so the rational
  model agrees with CPython on those inputs.  `round` is modelled with
  Python's banker's rounding (ties to even).
* XML documents (`lxml.etree` / `ElementTree`) are modelled by `XmlElem`:
  a tag, an attribute list, an optional text node and a list of children.
  Namespaces are not modelled (the extractors match unqualified local names,
  which for non-namespaced documents is plain tag equality); an element's
  trailing "tail" text is not modelled (the extractors never read it).
* Functions that can raise in Python but whose every call site swallows the
  exception are modelled as total functions returning `Option`.
-/

/-! ## Python string primitives -/

/-- The whitespace set of Python's default `str.strip` (equal to the regex
class matched by a backslash-s on ASCII text). -/
def pyWS (c : Char) : Bool :=
  c = ' ' || c = '\t' || c = '\n' || c = '\r' || c = '\x0b' || c = '\x0c'

/-- Python `str.strip()` on a character list. -/
def pyStripL (cs : List Char) : List Char :=
  ((cs.dropWhile pyWS).reverse.dropWhile pyWS).reverse

/-- Python `str.strip()`. -/
def pyStrip (s : String) : String :=
  (pyStripL s.toList).asString

/-- Python `str.lower()` (ASCII; the extractors only lowercase ASCII data). -/
def pyLower (s : String) : String :=
  (s.toList.map Char.toLower).asString

/-- Python `str.upper()` (ASCII). -/
def pyUpper (s : String) : String :=
  (s.toList.map Char.toUpper).asString

/-- Python `pat in hay` substring containment. -/
def containsSub (hay pat : List Char) : Bool :=
  if pat.isPrefixOf hay then true
  else
    match hay with
    | [] => false
    | _ :: t => containsSub t pat

/-- The characters of `hay` strictly before the first occurrence of `pat`
(`hay.split(pat)[0]`); all of `hay` when `pat` does not occur. -/
def takeBeforeSub (hay pat : List Char) : List Char :=
  if pat.isPrefixOf hay then []
  else
    match hay with
    | [] => []
    | c :: t => c :: takeBeforeSub t pat

/-- Python `a or b` on optional strings: `a` unless it is `None` or empty. -/
def pyOrStr (a b : Option String) : Option String :=
  match a with
  | none => b
  | some s => if s = "" then b else some s

/-! ## Python numeric literal parsing -/

/-- Value of a decimal digit. -/
def digitVal (c : Char) : Nat := c.toNat - '0'.toNat

/-- Numeric value of a digit run, ignoring underscores. -/
def digitsVal (cs : List Char) : Nat :=
  (cs.filter (fun c => c ≠ '_')).foldl (fun a c => a * 10 + digitVal c) 0

/-- Tail of a CPython digit run: digits with single underscores allowed
only between digits. -/
def digitsUTail : List Char → Bool
  | [] => true
  | '_' :: c :: rest => c.isDigit && digitsUTail rest
  | c :: rest => c.isDigit && digitsUTail rest

/-- A valid non-empty CPython digit run (underscores only between digits). -/
def digitsURun (cs : List Char) : Bool :=
  match cs with
  | [] => false
  | c :: rest => c.isDigit && digitsUTail rest

/-- Python `int(s)` on a string: optional sign, then a digit run.
`int` strips surrounding whitespace itself. Returns `none` where CPython
raises `ValueError` (every call site catches it). -/
def pyIntOfString (s : String) : Option Int :=
  match pyStripL s.toList with
  | '+' :: rest => if digitsURun rest then some (digitsVal rest : Int) else none
  | '-' :: rest => if digitsURun rest then some (-(digitsVal rest : Int)) else none
  | rest => if digitsURun rest then some (digitsVal rest : Int) else none

/-- A CPython `float` value: an exact rational, an infinity, or nan.
(All float computations reached by the claims are exact, so finite floats
are modelled by the rational they denote.) -/
inductive PyFloat where
  | fin (q : ℚ)
  | pinf
  | ninf
  | nan
deriving DecidableEq

/-- Digit-run / fraction / exponent decomposition of a float literal:
`ip` integer-part value, `fv` fraction-part value, `fd` number of fraction
digits, `ex` signed exponent. -/
structure FloatParts where
  neg : Bool
  ip : Nat
  fv : Nat
  fd : Nat
  ex : Int
deriving DecidableEq

/-- Number of actual digits in a run (underscores excluded). -/
def digitCount (cs : List Char) : Nat :=
  (cs.filter (fun c => c ≠ '_')).length

/-- Grammar of CPython `float(s)` after sign removal, decimal case:
`digits [. digits] [e [sign] digits]`, with at least one digit overall. -/
def floatDecParts (neg : Bool) (cs : List Char) : Option FloatParts :=
  let ipRun := cs.takeWhile (fun c => c.isDigit || c = '_')
  let rest1 := cs.dropWhile (fun c => c.isDigit || c = '_')
  if ipRun ≠ [] && !digitsURun ipRun then none
  else
    let pr : List Char × List Char :=
      match rest1 with
      | '.' :: r =>
        (r.takeWhile (fun c => c.isDigit || c = '_'),
         r.dropWhile (fun c => c.isDigit || c = '_'))
      | _ => ([], rest1)
    let fpRun := pr.1
    let rest2 := pr.2
    if (match rest1 with | '.' :: _ => fpRun ≠ [] && !digitsURun fpRun | _ => false) then none
    else if ipRun = [] && fpRun = [] then none
    else
      let mk (ex : Int) : FloatParts :=
        ⟨neg, digitsVal ipRun, digitsVal fpRun, digitCount fpRun, ex⟩
      match rest2 with
      | [] => some (mk 0)
      | e :: r3 =>
        if e = 'e' || e = 'E' then
          match r3 with
          | '+' :: r4 => if digitsURun r4 then some (mk (digitsVal r4 : Int)) else none
          | '-' :: r4 => if digitsURun r4 then some (mk (-(digitsVal r4 : Int))) else none
          | r4 => if digitsURun r4 then some (mk (digitsVal r4 : Int)) else none
        else none

/-- Rational value of a decomposed float literal. -/
def floatPartsVal (p : FloatParts) : ℚ :=
  (if p.neg then -1 else 1) *
    (((p.ip : ℚ) + (p.fv : ℚ) / (10 : ℚ) ^ p.fd) * (10 : ℚ) ^ p.ex)

/-- Syntactic classification of a float literal: a decimal decomposition
or one of the special keywords. -/
inductive FloatLit where
  | dec (p : FloatParts)
  | pinf
  | ninf
  | nan
deriving DecidableEq

/-- The parsing phase of Python `float(s)`: strips whitespace, optional
sign, then either an inf / infinity / nan keyword (case-insensitive) or a
decimal literal. -/
def pyFloatLit (s : String) : Option FloatLit :=
  let cs := pyStripL s.toList
  let sb : Bool × List Char :=
    match cs with
    | '+' :: r => (false, r)
    | '-' :: r => (true, r)
    | r => (false, r)
  let low := sb.2.map Char.toLower
  if low = "inf".toList || low = "infinity".toList then
    some (if sb.1 then .ninf else .pinf)
  else if low = "nan".toList then some .nan
  else (floatDecParts sb.1 sb.2).map .dec

/-- Python `float(s)`: the parsed literal's value.
Returns `none` where CPython raises `ValueError`. -/
def pyFloatOfString (s : String) : Option PyFloat :=
  (pyFloatLit s).map fun l =>
    match l with
    | .dec p => .fin (floatPartsVal p)
    | .pinf => .pinf
    | .ninf => .ninf
    | .nan => .nan

/-- Python `int(q)` on a finite float: truncation toward zero. -/
def ratTrunc (q : ℚ) : Int := q.num.tdiv (q.den : Int)

/-! ## The three safe_int / safe_float variants

The repository contains three near-duplicate integer coercions.  Inputs are
modelled as `Option String` (`None` or a string); every claim about them
concerns these inputs. -/

/-- src/hhml/utils.py `safe_int`: strip, reject empty, then plain `int(s)`
(not float-tolerant), `None` on failure. -/
def utils_safe_int (v : Option String) : Option Int :=
  match v with
  | none => none
  | some v =>
    let s := pyStrip v
    if s = "" then none else pyIntOfString s

/-- src/hhml/utils.py `safe_float`: strip, reject empty, then `float(s)`,
`None` on failure. -/
def utils_safe_float (v : Option String) : Option PyFloat :=
  match v with
  | none => none
  | some v =>
    let s := pyStrip v
    if s = "" then none else pyFloatOfString s

/-- src/hhml/ingest/pp_xml.py `safe_int`: strip, reject empty, then
`int(float(s))` (float-tolerant); `None` where CPython raises (including
`int(inf)` / `int(nan)`, which raise and are caught). -/
def pp_safe_int (x : Option String) : Option Int :=
  match x with
  | none => none
  | some v =>
    let s := pyStrip v
    if s = "" then none
    else
      match pyFloatOfString s with
      | some (.fin q) => some (ratTrunc q)
      | _ => none

/-- src/hhml/ingest/pp_xml.py `safe_float`. -/
def pp_safe_float (x : Option String) : Option PyFloat :=
  match x with
  | none => none
  | some v =>
    let s := pyStrip v
    if s = "" then none else pyFloatOfString s

/-- src/hhml/ingest/utils.py `safe_int(x, default=None)`: `int(x)` if `x`
is not `None` and `str(x).strip()` is non-empty, else the default; `int`
strips internally, and any exception yields the default. -/
def ingest_utils_safe_int (x : Option String) : Option Int :=
  match x with
  | none => none
  | some v => if pyStrip v = "" then none else pyIntOfString v

/-! ## XML document model

An lxml / ElementTree element: tag, attributes, optional text node, children.
The children live in a companion `XmlForest` type so that recursion over the
tree is structural (and therefore computes inside the kernel). -/

mutual
inductive XmlElem where
  | mk (tag : String) (attrs : List (String × String)) (text : Option String)
       (children : XmlForest)
inductive XmlForest where
  | nil
  | cons (head : XmlElem) (tail : XmlForest)
end

/-- Build a forest from a list of elements. -/
def XmlForest.ofList : List XmlElem → XmlForest
  | [] => .nil
  | e :: es => .cons e (XmlForest.ofList es)

def XmlElem.tag : XmlElem → String
  | .mk t _ _ _ => t

def XmlElem.attrs : XmlElem → List (String × String)
  | .mk _ a _ _ => a

def XmlElem.text : XmlElem → Option String
  | .mk _ _ x _ => x

/-- Direct children, as a list. -/
def XmlElem.children : XmlElem → List XmlElem
  | .mk _ _ _ cs =>
    let rec toList : XmlForest → List XmlElem
      | .nil => []
      | .cons e es => e :: toList es
    toList cs

mutual
/-- All proper descendants of an element, in document order
(xpath `.//*`). -/
def XmlElem.descendants : XmlElem → List XmlElem
  | .mk _ _ _ cs => XmlForest.descList cs
def XmlForest.descList : XmlForest → List XmlElem
  | .nil => []
  | .cons c cs => c :: (XmlElem.descendants c ++ XmlForest.descList cs)
end

/-- Attribute lookup, `el.get(key)`. -/
def attrGet (e : XmlElem) (k : String) : Option String :=
  (e.attrs.find? (fun kv => decide (kv.1 = k))).map Prod.snd

/-! ## chart_xml.py: namespace-agnostic XML helpers -/

/-- The text nodes produced by xpath `./*[local-name()=nm]/text()`:
the texts of the direct children tagged `nm`. -/
def childTexts (e : XmlElem) (nm : String) : List String :=
  (e.children.filter (fun c => decide (c.tag = nm))).filterMap XmlElem.text

/-- chart_xml.py `first_text(node, *names)`: for each name in order, the
first text hit of direct children with that local name; returned stripped
when non-empty, otherwise the next name is tried. -/
def first_text (e : XmlElem) : List String → Option String
  | [] => none
  | nm :: rest =>
    match childTexts e nm with
    | [] => first_text e rest
    | t :: _ =>
      let v := pyStrip t
      if v = "" then first_text e rest else some v

/-- chart_xml.py `findall(node, *names)`: for each name in order, all
descendants with that local name (xpath `.//*[local-name()=nm]`),
concatenated name by name. -/
def findall (e : XmlElem) (names : List String) : List XmlElem :=
  names.flatMap (fun nm => e.descendants.filter (fun c => decide (c.tag = nm)))

/-! ## chart_xml.py: distance and surface helpers -/

/-- Leftmost match of the regex `(\d+(?:\.\d+)?)`: the integer and
fractional digit runs. -/
def searchNumParts : List Char → Option (List Char × List Char)
  | [] => none
  | c :: rest =>
    if c.isDigit then
      let ip := (c :: rest).takeWhile Char.isDigit
      let r1 := (c :: rest).dropWhile Char.isDigit
      match r1 with
      | '.' :: r2 =>
        let fp := r2.takeWhile Char.isDigit
        if fp = [] then some (ip, []) else some (ip, fp)
      | _ => some (ip, [])
    else searchNumParts rest

/-- Rational value of integer and fraction digit runs. -/
def decVal (ip fp : List Char) : ℚ :=
  (digitsVal ip : ℚ) + (digitsVal fp : ℚ) / (10 : ℚ) ^ fp.length

/-- Python `round` to an integer: ties to even (banker's rounding). -/
def pyRound (q : ℚ) : Int :=
  let n := q.floor
  let r := q - (n : ℚ)
  if r < 1/2 then n
  else if 1/2 < r then n + 1
  else if n % 2 = 0 then n else n + 1

/-- Match of `^\s*(\d+)\s+(\d+)/(\d+)` (a mixed fraction such as
`1 1/16`): whole, numerator and denominator digit runs. -/
def mixedFractionParts (cs : List Char) : Option (List Char × List Char × List Char) :=
  let cs0 := cs.dropWhile pyWS
  let w := cs0.takeWhile Char.isDigit
  let r1 := cs0.dropWhile Char.isDigit
  if w = [] then none
  else
    match r1 with
    | c :: _ =>
      if pyWS c then
        let r2 := r1.dropWhile pyWS
        let n := r2.takeWhile Char.isDigit
        let r3 := r2.dropWhile Char.isDigit
        if n = [] then none
        else
          match r3 with
          | '/' :: r4 =>
            let d := r4.takeWhile Char.isDigit
            if d = [] then none else some (w, n, d)
          | _ => none
      else none
    | [] => none

/-- Match of `^\s*(\d+(?:\.\d+)?)`: integer and fraction digit runs. -/
def simpleNumParts (cs : List Char) : Option (List Char × List Char) :=
  let cs0 := cs.dropWhile pyWS
  match cs0 with
  | c :: rest =>
    if c.isDigit then
      let ip := (c :: rest).takeWhile Char.isDigit
      let r1 := (c :: rest).dropWhile Char.isDigit
      match r1 with
      | '.' :: r2 =>
        let fp := r2.takeWhile Char.isDigit
        if fp = [] then some (ip, []) else some (ip, fp)
      | _ => some (ip, [])
    else none
  | [] => none

/-- chart_xml.py `yards_from_furlongs_miles`: convert chart-style distance
strings to yards (furlongs times 220, miles times 1760, rounded).
A mixed fraction with denominator 0 makes CPython raise
`ZeroDivisionError`; the model yields the whole-part value there (division
by zero is 0 in `ℚ`), a case no claim touches. -/
def yards_from_furlongs_miles (dist : Option String) : Option Int :=
  match dist with
  | none => none
  | some d =>
    if d = "" then none
    else
      let s := (pyStrip (pyLower d)).toList
      if containsSub s "furlong".toList then
        match searchNumParts s with
        | none => none
        | some (ip, fp) => some (pyRound (decVal ip fp * 220))
      else if containsSub s "mile".toList then
        let parts := pyStripL (takeBeforeSub s "mile".toList)
        match mixedFractionParts parts with
        | some (w, n, dn) =>
          some (pyRound (((digitsVal w : ℚ) + (digitsVal n : ℚ) / (digitsVal dn : ℚ)) * 1760))
        | none =>
          match simpleNumParts parts with
          | none => none
          | some (ip, fp) => some (pyRound (decVal ip fp * 1760))
      else none

/-- chart_xml.py `surface_code`: map free-text surface to a single-letter
code. -/
def surface_code (val : Option String) : Option String :=
  match val with
  | none => none
  | some s =>
    if s = "" then none
    else
      let v := pyUpper (pyStrip s)
      if "TURF".toList.isPrefixOf v.toList then some "T"
      else if "DIRT".toList.isPrefixOf v.toList then some "D"
      else if "ALL WEATHER".toList.isPrefixOf v.toList || "SYN".toList.isPrefixOf v.toList then
        some "A"
      else if v = "" then none
      else some (v.toList.take 1).asString

/-- The loop inside `text_or_attr_distance` over `.//*[local-name()='Distance']`
elements: find one whose text equals `raw` and that carries a non-empty
`unit` / `UNIT` attribute, and render a unit-bearing distance string. -/
def distUnitScan (raw : String) : List XmlElem → Option String
  | [] => none
  | el :: rest =>
    let unit := pyStrip ((pyOrStr (attrGet el "unit") (attrGet el "UNIT")).getD "")
    if pyStrip ((el.text).getD "") = pyStrip raw && unit ≠ "" then
      let un := (pyLower unit).toList
      if "fur".toList.isPrefixOf un then some (raw ++ " Furlongs")
      else if "mil".toList.isPrefixOf un then
        match pyFloatOfString raw with
        | some (.fin q) =>
          if |q - (ratTrunc q : ℚ)| < 1 / 1000000000 then
            if ratTrunc q = 1 then some "1 Mile"
            else some (toString (ratTrunc q) ++ " Miles")
          else some (raw ++ " Miles")
        | _ => some (raw ++ " Miles")
      else distUnitScan raw rest
    else distUnitScan raw rest

/-- chart_xml.py `text_or_attr_distance`: a human-readable distance string
from description nodes, a unit-free `Distance` text, or a numeric
`Distance` with a unit attribute (falling back to furlongs). -/
def text_or_attr_distance (race : XmlElem) : Option String :=
  match first_text race
      ["DistanceDescription", "DISTANCE_DESCRIPTION", "DistanceDesc", "DIST_DESC"] with
  | some desc => some desc
  | none =>
    match first_text race ["Distance", "DISTANCE"] with
    | none => none
    | some raw =>
      if containsSub (pyLower raw).toList "furlong".toList ||
          containsSub (pyLower raw).toList "mile".toList then
        some raw
      else
        match distUnitScan raw (race.descendants.filter (fun c => decide (c.tag = "Distance"))) with
        | some u => some u
        | none => some (raw ++ " Furlongs")

/-- chart_xml.py `emit_rows_chart` lines 209-211: the over-scaled-distance
correction. A truthy yardage strictly above 10,000 is divided by 100
(Python true division, hence the rational result). -/
def distance_heuristic (y : Option Int) : Option ℚ :=
  match y with
  | none => none
  | some v =>
    if v ≠ 0 ∧ 10000 < v then some ((v : ℚ) / 100) else some (v : ℚ)

/-! ## Program-number normalization -/

/-- Core of the regex `(\d{1,2})([A-C]?)` anchored on both sides: one or
two digits plus an optional coupling letter A, B or C. -/
def progCore : List Char → Bool
  | [d] => d.isDigit
  | [d, c] => d.isDigit && (c.isDigit || c = 'A' || c = 'B' || c = 'C')
  | [d1, d2, l] => d1.isDigit && d2.isDigit && (l = 'A' || l = 'B' || l = 'C')
  | _ => false

/-- The shared program-number normalization of chart_xml.py and pp_xml.py:
`m = re.match(r"^\s*(\d{1,2})([A-C]?)\s*$", prog)` followed by
`m.group(0).strip()`. The matched text itself (whitespace-stripped) is
kept, so among accepted inputs the canonical form is the stripped input
verbatim. -/
def progNorm (p : String) : Option String :=
  let t := pyStrip p
  if progCore t.toList then some t else none

/-! ## chart_xml.py: emit_rows_chart

Row shapes follow the dicts built in the source.  The source additionally
stores `row_fingerprint = fingerprint(row)` into each dict; the fingerprint
function is modelled (and verified) separately below, and the stored copy of
it carries no information beyond the other fields, so the row models keep
only the data fields. -/

structure ChartRaceRow where
  track_code : Option String
  race_date : Option String
  race_number : Int
  surface : Option String
  distance_yards : Option ℚ
  track_condition : Option String
deriving DecidableEq

structure ChartEntryRow where
  track_code : String
  race_date : String
  race_number : Int
  program_number : String
  horse_name : String
  finish_position : Option Int
  final_odds : Option PyFloat
  win_payoff : Option PyFloat
  place_payoff : Option PyFloat
  show_payoff : Option PyFloat
deriving DecidableEq

/-- The race-number text lookup of `emit_rows_chart`. -/
def chart_rnum_text (race : XmlElem) : Option String :=
  first_text race
    ["RaceNumber", "RACE_NUMBER", "RaceNum", "RACE_NUM",
     "Number", "NUMBER", "RaceNo", "RACE_NO"]

/-- One chart race row: `idx` is the 1-based ordinal of the race element in
the document, used as the last-resort race number. -/
def chart_race_row (tcode rdate : Option String) (idx : Int) (race : XmlElem) :
    ChartRaceRow :=
  let rnum := (utils_safe_int (chart_rnum_text race)).getD idx
  { track_code := tcode
    race_date := rdate
    race_number := rnum
    surface := surface_code (first_text race ["Surface", "SURFACE"])
    distance_yards :=
      distance_heuristic (yards_from_furlongs_miles (text_or_attr_distance race))
    track_condition :=
      (first_text race ["TrackCondition", "TRACK_CONDITION"]).orElse fun _ =>
        (first_text race ["TrackConditionCode", "TRACK_CONDITION_CODE"]).orElse fun _ =>
          first_text race ["TrackConditionDesc", "TRACK_CONDITION_DESC"] }

/-- First starter scan: starters under any of eight parent container tags. -/
def chart_scan1_starters (race : XmlElem) : List XmlElem :=
  (findall race
      ["Starters", "STARTERS", "Entries", "ENTRIES", "Results", "RESULTS",
       "HorseList", "HORSELIST"]).flatMap
    (fun p => findall p ["Starter", "STARTER", "Entry", "ENTRY", "Horse", "HORSE"])

/-- Second starter scan: `Starter` elements under `Starters` parents only. -/
def chart_scan2_starters (race : XmlElem) : List XmlElem :=
  (findall race ["Starters", "STARTERS"]).flatMap
    (fun p => findall p ["Starter", "STARTER"])

/-- Program-number text lookup of the first starter scan. -/
def chart_prog1_text (s : XmlElem) : Option String :=
  first_text s
    ["ProgramNumber", "PROGRAM_NUMBER", "Program", "PROGRAM",
     "PostPosition", "POST_POSITION", "PP"]

/-- Program-number text lookup of the second starter scan (no `PP` alias). -/
def chart_prog2_text (s : XmlElem) : Option String :=
  first_text s
    ["ProgramNumber", "PROGRAM_NUMBER", "Program", "PROGRAM",
     "PostPosition", "POST_POSITION"]

/-- Entry row emitted by the first starter scan; `none` when the starter has
no program-number text or the text fails normalization (the starter is
skipped by `continue`). -/
def chart_scan1_row (tcode rdate : Option String) (rnum : Int) (s : XmlElem) :
    Option ChartEntryRow :=
  match chart_prog1_text s with
  | none => none
  | some p =>
    match progNorm p with
    | none => none
    | some prog =>
      some
        { track_code := tcode.getD ""
          race_date := rdate.getD ""
          race_number := rnum
          program_number := prog
          horse_name :=
            (first_text s
              ["Horse", "HORSE", "HorseName", "HORSE_NAME", "Name", "NAME"]).getD ""
          finish_position :=
            utils_safe_int (first_text s
              ["FinishPosition", "FINISH_POSITION", "Finish", "FINISH", "Pos", "POS"])
          final_odds :=
            utils_safe_float (first_text s ["FinalOdds", "FINAL_ODDS", "Odds", "ODDS"])
          win_payoff := utils_safe_float (first_text s ["WinPayoff", "WIN_PAYOFF", "WIN"])
          place_payoff :=
            utils_safe_float (first_text s ["PlacePayoff", "PLACE_PAYOFF", "PLACE"])
          show_payoff :=
            utils_safe_float (first_text s ["ShowPayoff", "SHOW_PAYOFF", "SHOW"]) }

/-- Python `x or 0.0` on an optional float. -/
def pyOrZero (a : Option PyFloat) : PyFloat :=
  match a with
  | none => .fin 0
  | some (.fin q) => if q = 0 then .fin 0 else .fin q
  | some v => v

/-- Entry row emitted by the second starter scan (fewer aliases, payoffs
defaulted to 0.0). -/
def chart_scan2_row (tcode rdate : Option String) (rnum : Int) (s : XmlElem) :
    Option ChartEntryRow :=
  match chart_prog2_text s with
  | none => none
  | some p =>
    match progNorm p with
    | none => none
    | some prog =>
      some
        { track_code := tcode.getD ""
          race_date := rdate.getD ""
          race_number := rnum
          program_number := prog
          horse_name := (first_text s ["Horse", "HORSE", "HorseName", "HORSE_NAME"]).getD ""
          finish_position :=
            utils_safe_int (first_text s
              ["FinishPosition", "FINISH_POSITION", "Finish", "FINISH"])
          final_odds :=
            utils_safe_float (first_text s ["FinalOdds", "FINAL_ODDS", "Odds", "ODDS"])
          win_payoff :=
            some (pyOrZero (utils_safe_float (first_text s ["WinPayoff", "WIN_PAYOFF", "WIN"])))
          place_payoff :=
            some (pyOrZero
              (utils_safe_float (first_text s ["PlacePayoff", "PLACE_PAYOFF", "PLACE"])))
          show_payoff :=
            some (pyOrZero
              (utils_safe_float (first_text s ["ShowPayoff", "SHOW_PAYOFF", "SHOW"]))) }

/-- The body of one iteration of the race loop of `emit_rows_chart`: the
race row plus the entry rows of both starter scans. -/
def chart_race_block (tcode rdate : Option String) (idx : Int) (race : XmlElem) :
    ChartRaceRow × List ChartEntryRow :=
  let rr := chart_race_row tcode rdate idx race
  (rr,
   (chart_scan1_starters race).filterMap (chart_scan1_row tcode rdate rr.race_number) ++
     (chart_scan2_starters race).filterMap (chart_scan2_row tcode rdate rr.race_number))

structure ChartRows where
  race : List ChartRaceRow
  entry : List ChartEntryRow
deriving DecidableEq

/-- Meet-level track code of `emit_rows_chart`: document value first,
filename default second. -/
def chart_meet_track (root : XmlElem) (default_track : Option String) : Option String :=
  pyOrStr (first_text root ["TrackCode", "TRACK_CODE"]) default_track

/-- Meet-level race date of `emit_rows_chart`: document value first,
filename default second. -/
def chart_meet_date (root : XmlElem) (default_date : Option String) : Option String :=
  pyOrStr (first_text root ["RaceDate", "RACE_DATE"]) default_date

/-- chart_xml.py `emit_rows_chart` over the document root. -/
def emit_rows_chart (root : XmlElem) (default_track default_date : Option String) :
    ChartRows :=
  let tcode := chart_meet_track root default_track
  let rdate := chart_meet_date root default_date
  let blocks :=
    (findall root ["Race", "RACE"]).enum.map
      (fun p => chart_race_block tcode rdate ((p.1 : Int) + 1) p.2)
  { race := blocks.map Prod.fst
    entry := blocks.flatMap Prod.snd }

/-! ## pp_xml.py: ElementTree-style lookup helpers

pp_xml.py uses `node.findtext(path)` (ElementTree), which matches qualified
tag paths against children: a bare tag matches direct children; `.//A`
matches descendants; `.//A/B` matches `B` children of `A` descendants.
`findtext` returns the matching element's text, or the empty string when
the element has no text. -/

/-- `node.findtext(tag)` for a bare child tag. -/
def etFindtextChild (e : XmlElem) (tag : String) : Option String :=
  (e.children.find? (fun c => decide (c.tag = tag))).map (fun el => el.text.getD "")

/-- `node.findtext(".//t1/t2")`. -/
def etFindtextDeep2 (e : XmlElem) (t1 t2 : String) : Option String :=
  (((e.descendants.filter (fun c => decide (c.tag = t1))).flatMap
      (fun x => x.children.filter (fun c => decide (c.tag = t2)))).head?).map
    (fun el => el.text.getD "")

/-- `node.findtext(".//t1")`. -/
def etFindtextDeep1 (e : XmlElem) (t1 : String) : Option String :=
  ((e.descendants.filter (fun c => decide (c.tag = t1))).head?).map
    (fun el => el.text.getD "")

/-- pp_xml.py `first_text(node, *paths)` / `rt(node, *paths)` over bare
child tags: first path whose text strips to non-empty, returned stripped. -/
def pp_first_text (e : XmlElem) : List String → Option String
  | [] => none
  | t :: rest =>
    match etFindtextChild e t with
    | some v => if pyStrip v = "" then pp_first_text e rest else some (pyStrip v)
    | none => pp_first_text e rest

/-- pp_xml.py `first_text` over the `.//Track/Code`-shaped paths. -/
def pp_first_text_deep2 (e : XmlElem) : List (String × String) → Option String
  | [] => none
  | (t1, t2) :: rest =>
    match etFindtextDeep2 e t1 t2 with
    | some v => if pyStrip v = "" then pp_first_text_deep2 e rest else some (pyStrip v)
    | none => pp_first_text_deep2 e rest

/-- pp_xml.py `first_text` over `.//RaceDate`-shaped paths. -/
def pp_first_text_deep1 (e : XmlElem) : List String → Option String
  | [] => none
  | t :: rest =>
    match etFindtextDeep1 e t with
    | some v => if pyStrip v = "" then pp_first_text_deep1 e rest else some (pyStrip v)
    | none => pp_first_text_deep1 e rest

/-- The attribute arm of pp_xml.py `et(node, *paths)`: first attribute
among `paths` whose value strips to non-empty, returned stripped. -/
def ppAttrText (e : XmlElem) : List String → Option String
  | [] => none
  | k :: rest =>
    match attrGet e k with
    | some v => if pyStrip v = "" then ppAttrText e rest else some (pyStrip v)
    | none => ppAttrText e rest

/-- pp_xml.py `et(node, *paths)`: child text by each path, then the same
names as attributes. -/
def pp_et (e : XmlElem) (paths : List String) : Option String :=
  match pp_first_text e paths with
  | some v => some v
  | none => ppAttrText e paths

/-! ## pp_xml.py: _emit_rows_pp -/

structure PPRaceRow where
  track_code : String
  race_date : String
  race_number : Int
  surface : Option String
  distance_yards : Option Int
  course : Option String
  track_condition : Option String
  age_restriction : Option String
  sex_restriction : Option String
  purse : Option Int
  wager_text : Option String
  program_selections : Option String
deriving DecidableEq

structure PPEntryRow where
  track_code : String
  race_date : String
  race_number : Int
  program_number : Option String
  horse_name : Option String
  sire : Option String
  dam : Option String
  trainer_name : Option String
  jockey_name : Option String
  med_lasix : Option Bool
  equip_blinkers : Option Bool
  ml_odds : Option String
  speed_fig_last : Option Int
  pace_fig1 : Option Int
  pace_fig2 : Option Int
  pace_fig3 : Option Int
  class_rating : Option Int
  last_comment : Option String
deriving DecidableEq

/-- Meet-level track code of `_emit_rows_pp`:
`(first_text(root, ".//Track/Code", ".//TRACK/CODE") or default_track or
"UNK").strip()` — the document value takes precedence over the filename
default. -/
def pp_meet_track (root : XmlElem) (default_track : Option String) : String :=
  pyStrip ((pyOrStr (pyOrStr (pp_first_text_deep2 root [("Track", "Code"), ("TRACK", "CODE")])
    default_track) (some "UNK")).getD "")

/-- Meet-level race date of `_emit_rows_pp`:
`(default_date or first_text(root, ".//RaceDate", ".//RACE_DATE") or
"").strip()` — the filename default takes precedence over the document
value. -/
def pp_meet_date (root : XmlElem) (default_date : Option String) : String :=
  pyStrip ((pyOrStr default_date
    (pp_first_text_deep1 root ["RaceDate", "RACE_DATE"])).getD "")

/-- Race-number text of `_emit_rows_pp`: tag lookups, then the `Number`,
`NUMBER` and `num` attributes (Python `or` chain, skipping empties). -/
def pp_rnum_text (race : XmlElem) : Option String :=
  pyOrStr (pp_first_text race ["Number", "NUMBER", "RaceNumber", "RACE_NUMBER"])
    (pyOrStr (attrGet race "Number") (pyOrStr (attrGet race "NUMBER") (attrGet race "num")))

/-- Entry nodes of one pp race: descendants under each of eight tags,
grouped tag by tag. -/
def pp_entry_nodes (race : XmlElem) : List XmlElem :=
  ["Starter", "STARTER", "Entry", "ENTRY", "Horse", "HORSE", "Runner", "RUNNER"].flatMap
    (fun t => race.descendants.filter (fun c => decide (c.tag = t)))

/-- Raw program-number text of one pp entry: child-tag lookups first, then
the entry element's own attributes. -/
def pp_prog_raw (e : XmlElem) : Option String :=
  pyOrStr
    (pp_first_text e
      ["Program", "PROGRAM", "Prog", "PROG", "Saddle", "SADDLE", "PP",
       "POST_POSITION", "PostPosition", "POST", "ENTRY_NUMBER"])
    (ppAttrText e ["program", "PROGRAM", "pp", "PP", "post", "POST"])

/-- One pp entry row.  Unlike the chart extractor, a failed program-number
normalization leaves `program_number` as `None`; the row is still
emitted. -/
def pp_entry_row (track rdate : String) (rnum : Int) (e : XmlElem) : PPEntryRow :=
  let prog :=
    match pp_prog_raw e with
    | none => none
    | some p => progNorm p
  let med := pyUpper ((pp_et e ["Medication", "MEDICATION"]).getD "")
  let eqp := pyUpper ((pp_et e ["Equipment", "EQUIPMENT"]).getD "")
  { track_code := track
    race_date := rdate
    race_number := rnum
    program_number := prog
    horse_name := pp_et e ["HorseName", "HORSE_NAME", "Name", "NAME"]
    sire := pp_et e ["Sire", "SIRE"]
    dam := pp_et e ["Dam", "DAM"]
    trainer_name := pp_et e ["TrainerName", "TRAINER_NAME", "Trainer", "TRAINER"]
    jockey_name := pp_et e ["JockeyName", "JOCKEY_NAME", "Jockey", "JOCKEY"]
    med_lasix := if med ≠ "" then some (containsSub med.toList "LASIX".toList) else none
    equip_blinkers := if eqp ≠ "" then some (containsSub eqp.toList "BLINK".toList) else none
    ml_odds := pp_et e ["MorningLine", "MORNING_LINE", "ML"]
    speed_fig_last := pp_safe_int (pp_et e ["SpeedFigure", "SPEED_FIGURE", "Speed", "SPEED"])
    pace_fig1 := pp_safe_int (pp_et e ["PaceFigure1", "PACE_FIGURE1", "Pace1", "PACE1"])
    pace_fig2 := pp_safe_int (pp_et e ["PaceFigure2", "PACE_FIGURE2", "Pace2", "PACE2"])
    pace_fig3 := pp_safe_int (pp_et e ["PaceFigure3", "PACE_FIGURE3", "Pace3", "PACE3"])
    class_rating := pp_safe_int (pp_et e ["ClassRating", "CLASS_RATING", "Class", "CLASS"])
    last_comment := pp_et e ["ShortComment", "LONG_COMMENT", "Comment", "COMMENT"] }

/-- The body of one iteration of the race loop of `_emit_rows_pp`: `none`
when the race number does not resolve (the race is skipped by `continue`,
"to satisfy NOT NULL"); otherwise the race row and its entry rows. -/
def pp_race_block (track rdate : String) (race : XmlElem) :
    Option (PPRaceRow × List PPEntryRow) :=
  match pp_safe_int (pp_rnum_text race) with
  | none => none
  | some rnum =>
    some
      ({ track_code := track
         race_date := rdate
         race_number := rnum
         surface := pp_first_text race ["Surface", "SURFACE"]
         distance_yards :=
           pp_safe_int (pp_first_text race ["DistanceYards", "DISTANCE_YARDS", "DistanceYd"])
         course := none
         track_condition :=
           pp_first_text race ["TrackCondition", "TRACK_CONDITION", "Condition"]
         age_restriction := pp_first_text race ["AgeRestriction", "AGE_RESTRICTION"]
         sex_restriction := pp_first_text race ["SexRestriction", "SEX_RESTRICTION"]
         purse := pp_safe_int (pp_first_text race ["Purse", "PURSE"])
         wager_text := pp_first_text race ["WagerText", "WAGER_TEXT"]
         program_selections :=
           pp_first_text race ["ProgramSelections", "PROGRAM_SELECTIONS"] },
       (pp_entry_nodes race).map (pp_entry_row track rdate rnum))

structure PPRows where
  race : List PPRaceRow
  entry : List PPEntryRow
deriving DecidableEq

/-- pp_xml.py `_emit_rows_pp` over the document root (the workout rows,
which no claim touches, are not modelled). -/
def emit_rows_pp (root : XmlElem) (default_track default_date : Option String) :
    PPRows :=
  let track := pp_meet_track root default_track
  let rdate := pp_meet_date root default_date
  let blocks := (findall root ["Race", "RACE"]).filterMap (pp_race_block track rdate)
  { race := blocks.map Prod.fst
    entry := blocks.flatMap Prod.snd }

/-! ## Filename-derived defaults -/

/-- `pathlib.Path.stem`: the file name minus its suffix; the suffix exists
only when the last dot is neither the first character nor the last. -/
def pyStem (name : String) : String :=
  let cs := name.toList
  let dots := (cs.enum.filter (fun p => p.2 = '.')).map Prod.fst
  match dots.getLast? with
  | some i => if 0 < i ∧ i + 1 < cs.length then (cs.take i).asString else name
  | none => name

/-- chart_xml.py `_defaults_from_filename`: `kee20231014tch.xml` gives
track `KEE` and date `2023-10-14`; anything whose stem is shorter than 11
characters or lacks 8 digits at positions 3-10 gives `(None, None)`. -/
def chart_defaults_from_filename (name : String) : Option String × Option String :=
  let stem := (pyStem name).toList
  if 11 ≤ stem.length then
    let track := ((stem.take 3).map Char.toUpper).asString
    let datePart := (stem.drop 3).take 8
    if datePart ≠ [] ∧ datePart.all Char.isDigit then
      (some track,
       some ((datePart.take 4).asString ++ "-" ++ ((datePart.drop 4).take 2).asString
         ++ "-" ++ ((datePart.drop 6).take 2).asString))
    else (none, none)
  else (none, none)

/-- Leftmost match of pp_xml.py `_DATE_RE = (20\d{2})(\d{2})(\d{2})`:
year, month, day values plus the ISO rendering of the matched digits. -/
def dateSearch : List Char → Option (Nat × Nat × Nat × String)
  | [] => none
  | c :: rest =>
    match c, rest with
    | '2', '0' :: a :: b :: m1 :: m2 :: d1 :: d2 :: _ =>
      if [a, b, m1, m2, d1, d2].all Char.isDigit then
        some (2000 + 10 * digitVal a + digitVal b,
              10 * digitVal m1 + digitVal m2,
              10 * digitVal d1 + digitVal d2,
              ⟨['2', '0', a, b, '-', m1, m2, '-', d1, d2]⟩)
      else dateSearch rest
    | _, _ => dateSearch rest

/-- Gregorian leap year. -/
def isLeap (y : Nat) : Bool :=
  y % 4 = 0 && (y % 100 ≠ 0 || y % 400 = 0)

/-- Days in a month, as validated by `datetime.strptime`. -/
def daysInMonth (y m : Nat) : Nat :=
  if m = 2 then (if isLeap y then 29 else 28)
  else if m = 4 ∨ m = 6 ∨ m = 9 ∨ m = 11 then 30
  else 31

/-- `datetime.strptime(s, "%Y%m%d")` validity of the matched date. -/
def strptimeValid (y m d : Nat) : Bool :=
  1 ≤ m && m ≤ 12 && 1 ≤ d && d ≤ daysInMonth y m

/-- The date arm of pp_xml.py `_defaults_from_filename`: leftmost date-like
run, validated by strptime (an invalid first match yields `None`; the
search is not retried). -/
def pp_date_from_name (name : String) : Option String :=
  match dateSearch name.toList with
  | none => none
  | some (y, m, d, iso) => if strptimeValid y m d then some iso else none

/-- Uppercase A-Z test ([A-Z] of the track regexes). -/
def isUpperAZ (c : Char) : Bool := 'A' ≤ c && c ≤ 'Z'

/-- Greedy match of `([A-Z]{2,4})[_\.]` at the head of the input: the
captured capital run, trying lengths 4, 3, 2. -/
def capsThenSep (cs : List Char) : Option (List Char) :=
  let tryLen (n : Nat) : Option (List Char) :=
    let g := cs.take n
    if g.length = n ∧ g.all isUpperAZ ∧ ((cs.drop n).head?.any fun c => c = '_' ∨ c = '.')
    then some g else none
  (tryLen 4).orElse fun _ => (tryLen 3).orElse fun _ => tryLen 2

/-- Leftmost match of pp_xml.py `20\d{6}([A-Z]{2,4})[_\.]`. -/
def trackSearch1 : List Char → Option String
  | [] => none
  | c :: rest =>
    match c, rest with
    | '2', '0' :: a :: b :: d1 :: d2 :: d3 :: d4 :: r =>
      if [a, b, d1, d2, d3, d4].all Char.isDigit then
        match capsThenSep r with
        | some g => some g.asString
        | none => trackSearch1 rest
      else trackSearch1 rest
    | _, _ => trackSearch1 rest

/-- Leftmost match of pp_xml.py `_TRACK_RE = ([A-Z]{2,4})[_\.]`. -/
def trackSearch2 : List Char → Option String
  | [] => none
  | c :: rest =>
    match capsThenSep (c :: rest) with
    | some g => some g.asString
    | none => trackSearch2 rest

/-- pp_xml.py `_defaults_from_filename`: date from the date regex plus
strptime, track from the positional regex and then the generic one. -/
def pp_defaults_from_filename (name : String) : Option String × Option String :=
  let rdate := pp_date_from_name name
  let track :=
    match trackSearch1 name.toList with
    | some t => some t
    | none => trackSearch2 name.toList
  (track, rdate)

/-! ## chart_xml.py: dynamic staging upsert

`get_table_columns` reads the destination schema; it is modelled by passing
the actual column set of each staging table as a parameter.  Payload values
are irrelevant to the claims about the writer, so rows are modelled as
association lists over an opaque value type. -/

def chart_race_wanted : List String :=
  ["source_file_id", "track_code", "race_date", "race_number", "surface",
   "distance_yards", "track_condition", "row_fingerprint"]

def chart_entry_wanted : List String :=
  ["source_file_id", "track_code", "race_date", "race_number", "program_number",
   "horse_name", "finish_position", "final_odds", "win_payoff", "place_payoff",
   "show_payoff", "row_fingerprint"]

/-- `race_pk`: key-column candidates present in the destination. -/
def chart_race_pk (race_cols_actual : List String) : List String :=
  ["source_file_id", "track_code", "race_date", "race_number"].filter
    (fun c => c ∈ race_cols_actual)

/-- `entry_pk`: key-column candidates present in the destination. -/
def chart_entry_pk (entry_cols_actual : List String) : List String :=
  ["source_file_id", "track_code", "race_date", "race_number", "program_number"].filter
    (fun c => c ∈ entry_cols_actual)

/-- `race_cols`: wanted columns present in the destination. -/
def chart_race_cols (race_cols_actual : List String) : List String :=
  chart_race_wanted.filter (fun c => c ∈ race_cols_actual)

/-- `entry_cols`: wanted columns present in the destination. -/
def chart_entry_cols (entry_cols_actual : List String) : List String :=
  chart_entry_wanted.filter (fun c => c ∈ entry_cols_actual)

/-- One executed upsert statement: target table, insert columns, conflict
columns, and the per-row payloads actually bound. -/
structure UpsertStmt (α : Type) where
  table : String
  cols : List String
  conflict_cols : List String
  payload : List (List (String × α))

/-- `{**r, "source_file_id": file_id}`. -/
def attach_file_id {α : Type} (fid : α) (r : List (String × α)) : List (String × α) :=
  r.filter (fun kv => kv.1 ≠ "source_file_id") ++ [("source_file_id", fid)]

/-- `{k: v for k, v in d.items() if k in cols}`. -/
def filter_to_cols {α : Type} (cols : List String) (r : List (String × α)) :
    List (String × α) :=
  r.filter (fun kv => kv.1 ∈ cols)

/-- chart_xml.py `_upsert_staging`: the pair of statements executed for the
race batch and the entry batch (`none` when the batch is skipped).  A batch
executes only when its rows, its resolved column list and its resolved key
list are all non-empty. -/
def upsert_staging {α : Type} (race_cols_actual entry_cols_actual : List String)
    (fid : α) (race_rows entry_rows : List (List (String × α))) :
    Option (UpsertStmt α) × Option (UpsertStmt α) :=
  let race_pk := chart_race_pk race_cols_actual
  let entry_pk := chart_entry_pk entry_cols_actual
  let race_cols := chart_race_cols race_cols_actual
  let entry_cols := chart_entry_cols entry_cols_actual
  (if !race_rows.isEmpty && !race_cols.isEmpty && !race_pk.isEmpty then
    some
      { table := "stg_chart_race"
        cols := race_cols
        conflict_cols := race_pk
        payload := (race_rows.map (attach_file_id fid)).map (filter_to_cols race_cols) }
   else none,
   if !entry_rows.isEmpty && !entry_cols.isEmpty && !entry_pk.isEmpty then
    some
      { table := "stg_chart_entry"
        cols := entry_cols
        conflict_cols := entry_pk
        payload := (entry_rows.map (attach_file_id fid)).map (filter_to_cols entry_cols) }
   else none)

/-! ## Row fingerprints

Both fingerprint implementations canonicalize with
`json.dumps(row, sort_keys=True, separators=(",", ":"))` and hash the UTF-8
bytes: pp_xml.py / ingest/utils.py with `hashlib.md5`, utils.py with
`hashlib.sha1` (whose `default=str` argument only affects values that are
not JSON-serializable, which scalar rows never contain). -/

/-- A flat JSON scalar: the row values handled by `fingerprint`. -/
inductive JVal where
  | jstr (s : String)
  | jint (n : Int)
  | jbool (b : Bool)
  | jnull
deriving DecidableEq

/-- The sixteen lowercase hex digits. -/
def hexDigitsLower : List Char := "0123456789abcdef".toList

/-- Lowercase hex digit of a nibble. -/
def hexChar (n : Nat) : Char := hexDigitsLower.getD n '0'

/-- Four-digit lowercase hex rendering (for JSON escapes). -/
def hex4 (n : Nat) : String :=
  ⟨[hexChar (n / 4096 % 16), hexChar (n / 256 % 16), hexChar (n / 16 % 16), hexChar (n % 16)]⟩

/-- `json.dumps` escaping of one character (`ensure_ascii` default). -/
def jsonEscChar (c : Char) : String :=
  if c = '"' then "\\\""
  else if c = '\\' then "\\\\"
  else if c = '\n' then "\\n"
  else if c = '\t' then "\\t"
  else if c = '\r' then "\\r"
  else if c = '\x08' then "\\b"
  else if c = '\x0c' then "\\f"
  else if c.toNat < 32 then "\\u" ++ hex4 c.toNat
  else if c.toNat < 127 then c.toString
  else if c.toNat < 65536 then "\\u" ++ hex4 c.toNat
  else
    let v := c.toNat - 65536
    "\\u" ++ hex4 (55296 + v / 1024) ++ "\\u" ++ hex4 (56320 + v % 1024)

/-- `json.dumps` rendering of a string. -/
def jsonStr (s : String) : String :=
  "\"" ++ String.join (s.toList.map jsonEscChar) ++ "\""

/-- `json.dumps` rendering of a scalar. -/
def jsonVal : JVal → String
  | .jstr s => jsonStr s
  | .jint n => toString n
  | .jbool b => if b then "true" else "false"
  | .jnull => "null"

/-- `json.dumps(row, sort_keys=True, separators=(",", ":"))` of a flat
mapping, modelled as an association list with distinct keys: sort the
pairs by key (Python compares strings by code point) and render compactly. -/
def canonJson (row : List (String × JVal)) : String :=
  let sorted := row.mergeSort (fun a b => decide (a.1 ≤ b.1))
  "\x7b" ++
    String.intercalate ","
      (sorted.map (fun kv => jsonStr kv.1 ++ ":" ++ jsonVal kv.2)) ++
    "\x7d"

/-- UTF-8 encoding of one character. -/
def utf8Char (c : Char) : List Nat :=
  let n := c.toNat
  if n < 128 then [n]
  else if n < 2048 then [192 + n / 64, 128 + n % 64]
  else if n < 65536 then [224 + n / 4096, 128 + n / 64 % 64, 128 + n % 64]
  else [240 + n / 262144, 128 + n / 4096 % 64, 128 + n / 64 % 64, 128 + n % 64]

/-- `s.encode("utf-8")` as a byte list. -/
def utf8Bytes (s : String) : List Nat := s.toList.flatMap utf8Char

/-! ### 32-bit word arithmetic over `Nat` -/

/-- 2 to the 32nd. -/
def M32 : Nat := 4294967296

/-- Addition modulo 2^32. -/
def add32 (a b : Nat) : Nat := (a + b) % M32

/-- Left rotation of a 32-bit word. -/
def rotl32 (x n : Nat) : Nat := (x * 2 ^ n + x / 2 ^ (32 - n)) % M32

/-- Bitwise complement of a 32-bit word. -/
def not32 (x : Nat) : Nat := (M32 - 1) - x

/-- Little-endian bytes of a 32-bit word. -/
def toLE4 (w : Nat) : List Nat :=
  [w % 256, w / 256 % 256, w / 65536 % 256, w / 16777216 % 256]

/-- Big-endian bytes of a 32-bit word. -/
def toBE4 (w : Nat) : List Nat :=
  [w / 16777216 % 256, w / 65536 % 256, w / 256 % 256, w % 256]

/-- Little-endian bytes of a 64-bit length field. -/
def toLE8 (n : Nat) : List Nat :=
  toLE4 (n % M32) ++ toLE4 (n / M32 % M32)

/-- Big-endian bytes of a 64-bit length field. -/
def toBE8 (n : Nat) : List Nat :=
  toBE4 (n / M32 % M32) ++ toBE4 (n % M32)

/-- 32-bit word from four little-endian bytes. -/
def leWord (b : List Nat) : Nat :=
  b.getD 0 0 + 256 * b.getD 1 0 + 65536 * b.getD 2 0 + 16777216 * b.getD 3 0

/-- 32-bit word from four big-endian bytes. -/
def beWord (b : List Nat) : Nat :=
  16777216 * b.getD 0 0 + 65536 * b.getD 1 0 + 256 * b.getD 2 0 + b.getD 3 0

/-- Merkle-Damgard padding shared by MD5 and SHA-1: a 0x80 byte, zeros to
56 mod 64, then the 8-byte bit length (little-endian for MD5, big-endian
for SHA-1). -/
def padTail (len : Nat) (lenBytes : Nat → List Nat) : List Nat :=
  128 :: List.replicate ((119 - len % 64) % 64) 0 ++ lenBytes (8 * len % 2 ^ 64)

/-- Split a byte list into 64-byte chunks. -/
def chunk64 : List Nat → List (List Nat)
  | [] => []
  | x :: xs => (x :: xs.take 63) :: chunk64 (xs.drop 63)
termination_by l => l.length
decreasing_by
  simp only [List.length_cons]
  have := List.length_drop 63 xs
  omega

/-! ### MD5 (RFC 1321) -/

/-- Per-round additive constants of MD5. -/
def md5K : List Nat :=
  [0xd76aa478, 0xe8c7b756, 0x242070db, 0xc1bdceee,
   0xf57c0faf, 0x4787c62a, 0xa8304613, 0xfd469501,
   0x698098d8, 0x8b44f7af, 0xffff5bb1, 0x895cd7be,
   0x6b901122, 0xfd987193, 0xa679438e, 0x49b40821,
   0xf61e2562, 0xc040b340, 0x265e5a51, 0xe9b6c7aa,
   0xd62f105d, 0x02441453, 0xd8a1e681, 0xe7d3fbc8,
   0x21e1cde6, 0xc33707d6, 0xf4d50d87, 0x455a14ed,
   0xa9e3e905, 0xfcefa3f8, 0x676f02d9, 0x8d2a4c8a,
   0xfffa3942, 0x8771f681, 0x6d9d6122, 0xfde5380c,
   0xa4beea44, 0x4bdecfa9, 0xf6bb4b60, 0xbebfbc70,
   0x289b7ec6, 0xeaa127fa, 0xd4ef3085, 0x04881d05,
   0xd9d4d039, 0xe6db99e5, 0x1fa27cf8, 0xc4ac5665,
   0xf4292244, 0x432aff97, 0xab9423a7, 0xfc93a039,
   0x655b59c3, 0x8f0ccc92, 0xffeff47d, 0x85845dd1,
   0x6fa87e4f, 0xfe2ce6e0, 0xa3014314, 0x4e0811a1,
   0xf7537e82, 0xbd3af235, 0x2ad7d2bb, 0xeb86d391]

/-- Per-round rotation amounts of MD5. -/
def md5S : List Nat :=
  [7, 12, 17, 22, 7, 12, 17, 22, 7, 12, 17, 22, 7, 12, 17, 22,
   5, 9, 14, 20, 5, 9, 14, 20, 5, 9, 14, 20, 5, 9, 14, 20,
   4, 11, 16, 23, 4, 11, 16, 23, 4, 11, 16, 23, 4, 11, 16, 23,
   6, 10, 15, 21, 6, 10, 15, 21, 6, 10, 15, 21, 6, 10, 15, 21]

/-- State of the four MD5 registers. -/
structure MD5State where
  a : Nat
  b : Nat
  c : Nat
  d : Nat

/-- One MD5 round. -/
def md5Round (m : List Nat) (st : MD5State) (i : Nat) : MD5State :=
  let fg : Nat × Nat :=
    if i < 16 then (Nat.lor (Nat.land st.b st.c) (Nat.land (not32 st.b) st.d), i)
    else if i < 32 then
      (Nat.lor (Nat.land st.d st.b) (Nat.land (not32 st.d) st.c), (5 * i + 1) % 16)
    else if i < 48 then (Nat.xor st.b (Nat.xor st.c st.d), (3 * i + 5) % 16)
    else (Nat.xor st.c (Nat.lor st.b (not32 st.d)), (7 * i) % 16)
  let t := (fg.1 + st.a + md5K.getD i 0 + m.getD fg.2 0) % M32
  { a := st.d, b := add32 st.b (rotl32 t (md5S.getD i 0)), c := st.b, d := st.c }

/-- Digest one 64-byte chunk into the MD5 state. -/
def md5Chunk (st : MD5State) (chunk : List Nat) : MD5State :=
  let m := (List.range 16).map (fun i => leWord ((chunk.drop (4 * i)).take 4))
  let r := (List.range 64).foldl (md5Round m) st
  { a := add32 st.a r.a, b := add32 st.b r.b, c := add32 st.c r.c, d := add32 st.d r.d }

/-- MD5 digest bytes of a message. -/
def md5Bytes (msg : List Nat) : List Nat :=
  let padded := msg ++ padTail msg.length toLE8
  let st := (chunk64 padded).foldl md5Chunk
    { a := 0x67452301, b := 0xefcdab89, c := 0x98badcfe, d := 0x10325476 }
  toLE4 st.a ++ toLE4 st.b ++ toLE4 st.c ++ toLE4 st.d

/-- Lowercase hex rendering of a byte list (`hexdigest()`). -/
def bytesToHex (bs : List Nat) : String :=
  (bs.flatMap (fun b => [hexChar (b / 16 % 16), hexChar (b % 16)])).asString

/-- `hashlib.md5(x).hexdigest()`. -/
def md5Hex (msg : List Nat) : String := bytesToHex (md5Bytes msg)

/-! ### SHA-1 (RFC 3174) -/

/-- State of the five SHA-1 registers. -/
structure SHA1State where
  a : Nat
  b : Nat
  c : Nat
  d : Nat
  e : Nat

/-- Extend sixteen schedule words to eighty. -/
def sha1Schedule (w16 : List Nat) : List Nat :=
  (List.range 64).foldl
    (fun w j =>
      w ++ [rotl32
        (Nat.xor (w.getD (j + 13) 0)
          (Nat.xor (w.getD (j + 8) 0) (Nat.xor (w.getD (j + 2) 0) (w.getD j 0)))) 1])
    w16

/-- One SHA-1 round. -/
def sha1Round (w : List Nat) (st : SHA1State) (i : Nat) : SHA1State :=
  let fk : Nat × Nat :=
    if i < 20 then
      (Nat.lor (Nat.land st.b st.c) (Nat.land (not32 st.b) st.d), 0x5a827999)
    else if i < 40 then (Nat.xor st.b (Nat.xor st.c st.d), 0x6ed9eba1)
    else if i < 60 then
      (Nat.lor (Nat.lor (Nat.land st.b st.c) (Nat.land st.b st.d))
        (Nat.land st.c st.d), 0x8f1bbcdc)
    else (Nat.xor st.b (Nat.xor st.c st.d), 0xca62c1d6)
  { a := (rotl32 st.a 5 + fk.1 + st.e + fk.2 + w.getD i 0) % M32
    b := st.a
    c := rotl32 st.b 30
    d := st.c
    e := st.d }

/-- Digest one 64-byte chunk into the SHA-1 state. -/
def sha1Chunk (st : SHA1State) (chunk : List Nat) : SHA1State :=
  let w := sha1Schedule ((List.range 16).map (fun i => beWord ((chunk.drop (4 * i)).take 4)))
  let r := (List.range 80).foldl (sha1Round w) st
  { a := add32 st.a r.a, b := add32 st.b r.b, c := add32 st.c r.c,
    d := add32 st.d r.d, e := add32 st.e r.e }

/-- SHA-1 digest bytes of a message. -/
def sha1Bytes (msg : List Nat) : List Nat :=
  let padded := msg ++ padTail msg.length toBE8
  let st := (chunk64 padded).foldl sha1Chunk
    { a := 0x67452301, b := 0xefcdab89, c := 0x98badcfe, d := 0x10325476, e := 0xc3d2e1f0 }
  toBE4 st.a ++ toBE4 st.b ++ toBE4 st.c ++ toBE4 st.d ++ toBE4 st.e

/-- `hashlib.sha1(x).hexdigest()`. -/
def sha1Hex (msg : List Nat) : String := bytesToHex (sha1Bytes msg)

/-- pp_xml.py / ingest/utils.py `fingerprint(row)`:
`hashlib.md5(json.dumps(row, sort_keys=True, separators=(",", ":"))
.encode("utf-8")).hexdigest()`. -/
def pp_fingerprint (row : List (String × JVal)) : String :=
  md5Hex (utf8Bytes (canonJson row))

/-- utils.py `fingerprint(value)` for flat scalar rows: same
canonicalization, hashed with sha1. -/
def utils_fingerprint (row : List (String × JVal)) : String :=
  sha1Hex (utf8Bytes (canonJson row))

/-! ## Supporting lemmas -/

/-- The key comparator used by `canonJson`. -/
def keyLe (a b : String × JVal) : Bool := decide (a.1 ≤ b.1)

lemma keyLe_trans : ∀ a b c : String × JVal, keyLe a b → keyLe b c → keyLe a c := by
  intro a b c hab hbc
  simp only [keyLe, decide_eq_true_eq] at *
  exact le_trans hab hbc

lemma keyLe_total : ∀ a b : String × JVal, keyLe a b || keyLe b a := by
  intro a b
  simp only [keyLe]
  rcases le_total a.1 b.1 with h | h <;> simp [h]

/-- Sorting by key sends key-distinct permutations of a mapping to the same
list; this is the heart of fingerprint order-independence. -/
lemma mergeSort_key_perm_eq (m m' : List (String × JVal)) (hp : m.Perm m')
    (hn : (m.map Prod.fst).Nodup) :
    m.mergeSort keyLe = m'.mergeSort keyLe := by
  haveI : IsAntisymm (String × JVal) (fun a b => a.1 < b.1) :=
    ⟨fun a b h1 h2 => absurd (lt_trans h1 h2) (lt_irrefl _)⟩
  have hperm : (m.mergeSort keyLe).Perm (m'.mergeSort keyLe) :=
    ((List.mergeSort_perm m keyLe).trans hp).trans (List.mergeSort_perm m' keyLe).symm
  have hn' : (m'.map Prod.fst).Nodup := ((hp.map Prod.fst).nodup_iff).mp hn
  have sorted : ∀ (l : List (String × JVal)), (l.map Prod.fst).Nodup →
      (l.mergeSort keyLe).Sorted (fun a b => a.1 < b.1) := by
    intro l hl
    have hle : (l.mergeSort keyLe).Pairwise (fun a b => a.1 ≤ b.1) := by
      have := List.sorted_mergeSort keyLe_trans keyLe_total l
      exact this.imp (fun h => by simpa [keyLe] using h)
    have hnd : ((l.mergeSort keyLe).map Prod.fst).Nodup :=
      (((List.mergeSort_perm l keyLe).map Prod.fst).nodup_iff).mpr hl
    have hne : (l.mergeSort keyLe).Pairwise (fun a b => a.1 ≠ b.1) :=
      List.pairwise_map.mp hnd
    exact (hle.and hne).imp (fun h => lt_of_le_of_ne h.1 h.2)
  exact List.eq_of_perm_of_sorted hperm (sorted m hn) (sorted m' hn')

/-- Canonicalization is invariant under reordering of a key-distinct
mapping. -/
lemma canonJson_perm (m m' : List (String × JVal)) (hp : m.Perm m')
    (hn : (m.map Prod.fst).Nodup) :
    canonJson m = canonJson m' := by
  unfold canonJson
  rw [show m.mergeSort (fun a b => decide (a.1 ≤ b.1)) = m.mergeSort keyLe from rfl,
      show m'.mergeSort (fun a b => decide (a.1 ≤ b.1)) = m'.mergeSort keyLe from rfl,
      mergeSort_key_perm_eq m m' hp hn]

/-- Every `hexChar` output is a lowercase hex digit. -/
lemma hexChar_mem (n : Nat) : hexChar n ∈ hexDigitsLower := by
  unfold hexChar
  rcases lt_or_le n hexDigitsLower.length with h | h
  · rw [List.getD_eq_getElem _ _ h]
    exact List.getElem_mem h
  · rw [List.getD_eq_default _ _ h]
    decide

/-- Hex rendering doubles the byte count. -/
lemma length_bytesToHex (bs : List Nat) : (bytesToHex bs).length = 2 * bs.length := by
  unfold bytesToHex
  rw [List.length_asString]
  induction bs with
  | nil => rfl
  | cons b t ih =>
    simp only [List.flatMap_cons, List.length_append, List.length_cons,
      List.length_nil, List.length_cons, ih]
    omega

/-- Every character of a hex rendering is a lowercase hex digit. -/
lemma mem_bytesToHex (bs : List Nat) : ∀ c ∈ (bytesToHex bs).toList, c ∈ hexDigitsLower := by
  unfold bytesToHex
  rw [List.toList_asString]
  intro c hc
  rcases List.mem_flatMap.mp hc with ⟨b, _, hb⟩
  simp only [List.mem_cons, List.not_mem_nil, or_false] at hb
  rcases hb with h | h
  · exact h ▸ hexChar_mem _
  · exact h ▸ hexChar_mem _

/-- An MD5 digest is sixteen bytes. -/
lemma length_md5Bytes (msg : List Nat) : (md5Bytes msg).length = 16 := by
  simp [md5Bytes, toLE4]

/-- A SHA-1 digest is twenty bytes. -/
lemma length_sha1Bytes (msg : List Nat) : (sha1Bytes msg).length = 20 := by
  simp [sha1Bytes, toBE4]

/-! ## Claim C1 -/

/-- C1: for every flat mapping from field names to scalar values and every
reordering of its keys, the row fingerprint (in both its md5 and sha1
incarnations) of the mapping equals the fingerprint of the reordered
mapping, and the result is a fixed-length lowercase hex digest (32
characters for md5, 40 for sha1, all drawn from 0-9a-f). -/
theorem fingerprint_order_independent_hex (m m' : List (String × JVal))
    (hp : m.Perm m') (hn : (m.map Prod.fst).Nodup) :
    pp_fingerprint m = pp_fingerprint m' ∧
    utils_fingerprint m = utils_fingerprint m' ∧
    (pp_fingerprint m).length = 32 ∧
    (utils_fingerprint m).length = 40 ∧
    (∀ c ∈ (pp_fingerprint m).toList, c ∈ hexDigitsLower) ∧
    (∀ c ∈ (utils_fingerprint m).toList, c ∈ hexDigitsLower) := by
  have hc := canonJson_perm m m' hp hn
  refine ⟨by unfold pp_fingerprint; rw [hc],
    by unfold utils_fingerprint; rw [hc], ?_, ?_, ?_, ?_⟩
  · unfold pp_fingerprint md5Hex
    rw [length_bytesToHex, length_md5Bytes]
  · unfold utils_fingerprint sha1Hex
    rw [length_bytesToHex, length_sha1Bytes]
  · exact mem_bytesToHex _
  · exact mem_bytesToHex _

/-- Witness for C1 at a concrete two-field row and its key reordering. -/
theorem fingerprint_order_independent_hex_witness :
    [("track_code", JVal.jstr "KEE"), ("race_number", JVal.jint 5)].Perm
        [("race_number", JVal.jint 5), ("track_code", JVal.jstr "KEE")] ∧
    ([("track_code", JVal.jstr "KEE"), ("race_number", JVal.jint 5)].map
        Prod.fst).Nodup ∧
    pp_fingerprint [("track_code", JVal.jstr "KEE"), ("race_number", JVal.jint 5)] =
      pp_fingerprint [("race_number", JVal.jint 5), ("track_code", JVal.jstr "KEE")] ∧
    (pp_fingerprint [("track_code", JVal.jstr "KEE"), ("race_number", JVal.jint 5)]).length
      = 32 :=
  ⟨by decide, by decide,
   (fingerprint_order_independent_hex _ _ (by decide) (by decide)).1,
   (fingerprint_order_independent_hex _ _ (List.Perm.refl _) (by decide)).2.2.1⟩

/-- Batteries' `Rat.floor` agrees with the `Int.floor` of Mathlib's
`FloorRing` instance (definitional). -/
lemma ratFloor_eq_intFloor (q : ℚ) : q.floor = ⌊q⌋ := rfl

/-! ## Claim C3 -/

/-- The concrete race element of C3: a numeric `Distance` of 650 carrying
a furlong unit code. -/
def race650 : XmlElem :=
  .mk "Race" [] none (.ofList [.mk "Distance" [("unit", "F")] (some "650") .nil])

/-- C3: distance normalization maps "6 Furlongs" to 1320 yards, "1 Mile"
to 1760 yards, "1 1/16 Miles" to 1870 yards; and a numeric distance value
of 650 carrying a furlong unit code resolves, after the over-scale
correction, to 1430 yards. -/
theorem distance_normalization_examples :
    yards_from_furlongs_miles (some "6 Furlongs") = some 1320 ∧
    yards_from_furlongs_miles (some "1 Mile") = some 1760 ∧
    yards_from_furlongs_miles (some "1 1/16 Miles") = some 1870 ∧
    text_or_attr_distance race650 = some "650 Furlongs" ∧
    distance_heuristic (yards_from_furlongs_miles (text_or_attr_distance race650)) =
      some 1430 := by
  have hfur : yards_from_furlongs_miles (some "6 Furlongs") = some 1320 := by
    have h1 : (pyStrip (pyLower "6 Furlongs")).toList = "6 furlongs".toList := by decide
    have h2 : searchNumParts "6 furlongs".toList = some (['6'], []) := by decide
    have h3 : containsSub "6 furlongs".toList "furlong".toList = true := by decide
    have h4 : decVal ['6'] [] = 6 := by
      rw [decVal, show digitsVal ['6'] = 6 from by decide,
        show digitsVal ([] : List Char) = 0 from by decide]
      norm_num
    simp only [yards_from_furlongs_miles, h1, h2, h3, h4, if_true]
    rw [if_neg (by decide)]
    norm_num [pyRound, ratFloor_eq_intFloor]
  have hmile : yards_from_furlongs_miles (some "1 Mile") = some 1760 := by
    have h1 : (pyStrip (pyLower "1 Mile")).toList = "1 mile".toList := by decide
    have h3 : containsSub "1 mile".toList "furlong".toList = false := by decide
    have h3b : containsSub "1 mile".toList "mile".toList = true := by decide
    have h5 : pyStripL (takeBeforeSub "1 mile".toList "mile".toList) = ['1'] := by decide
    have h6 : mixedFractionParts ['1'] = none := by decide
    have h7 : simpleNumParts ['1'] = some (['1'], []) := by decide
    have h4 : decVal ['1'] [] = 1 := by
      rw [decVal, show digitsVal ['1'] = 1 from by decide,
        show digitsVal ([] : List Char) = 0 from by decide]
      norm_num
    simp only [yards_from_furlongs_miles, h1, h3, h3b, h5, h6, h7, h4,
      Bool.false_eq_true, if_false, if_true]
    rw [if_neg (by decide)]
    norm_num [pyRound, ratFloor_eq_intFloor]
  have hmix : yards_from_furlongs_miles (some "1 1/16 Miles") = some 1870 := by
    have h1 : (pyStrip (pyLower "1 1/16 Miles")).toList = "1 1/16 miles".toList := by
      decide
    have h3 : containsSub "1 1/16 miles".toList "furlong".toList = false := by decide
    have h3b : containsSub "1 1/16 miles".toList "mile".toList = true := by decide
    have h5 : pyStripL (takeBeforeSub "1 1/16 miles".toList "mile".toList) =
        "1 1/16".toList := by decide
    have h6 : mixedFractionParts "1 1/16".toList = some (['1'], ['1'], ['1', '6']) := by
      decide
    simp only [yards_from_furlongs_miles, h1, h3, h3b, h5, h6,
      Bool.false_eq_true, if_false]
    rw [if_neg (by decide)]
    rw [show digitsVal ['1'] = 1 from by decide,
      show digitsVal ['1', '6'] = 16 from by decide]
    norm_num [pyRound, ratFloor_eq_intFloor]
  have htext : text_or_attr_distance race650 = some "650 Furlongs" := by decide
  have h650 : yards_from_furlongs_miles (some "650 Furlongs") = some 143000 := by
    have h1 : (pyStrip (pyLower "650 Furlongs")).toList = "650 furlongs".toList := by
      decide
    have h2 : searchNumParts "650 furlongs".toList = some (['6', '5', '0'], []) := by
      decide
    have h3 : containsSub "650 furlongs".toList "furlong".toList = true := by decide
    have h4 : decVal ['6', '5', '0'] [] = 650 := by
      rw [decVal, show digitsVal ['6', '5', '0'] = 650 from by decide,
        show digitsVal ([] : List Char) = 0 from by decide]
      norm_num
    simp only [yards_from_furlongs_miles, h1, h2, h3, h4, if_true]
    rw [if_neg (by decide)]
    norm_num [pyRound, ratFloor_eq_intFloor]
  refine ⟨hfur, hmile, hmix, htext, ?_⟩
  rw [htext, h650]
  rw [show distance_heuristic (some 143000) = some (((143000 : Int) : ℚ) / 100) from by
    rw [distance_heuristic]
    rw [if_pos (by norm_num)]]
  push_cast
  norm_num

/-! ## Claim C7 -/

/-- C7: for every chart race whose distance parses to a yardage strictly
greater than 10,000, the emitted distance_yards value is the parsed yardage
divided by 100; for every parsed yardage of at most 10,000 the value is
emitted unchanged.  The final conjunct ties the heuristic to the emitted
race row. -/
theorem over_scaled_distance_correction (v : Int) :
    (10000 < v → distance_heuristic (some v) = some ((v : ℚ) / 100)) ∧
    (v ≤ 10000 → distance_heuristic (some v) = some (v : ℚ)) ∧
    (∀ tcode rdate idx race, (chart_race_row tcode rdate idx race).distance_yards =
      distance_heuristic (yards_from_furlongs_miles (text_or_attr_distance race))) := by
  refine ⟨fun h => ?_, fun h => ?_, fun _ _ _ _ => rfl⟩
  · rw [distance_heuristic, if_pos ⟨by omega, h⟩]
  · rw [distance_heuristic, if_neg (fun hc => absurd hc.2 (not_lt.mpr h))]

/-- Witness for C7 at the over-scaled yardage 143000 and the plausible
yardage 1320. -/
theorem over_scaled_distance_correction_witness :
    distance_heuristic (some 143000) = some ((143000 : ℚ) / 100) ∧
    distance_heuristic (some 1320) = some ((1320 : ℚ)) :=
  ⟨(over_scaled_distance_correction 143000).1 (by norm_num),
   (over_scaled_distance_correction 1320).2.1 (by norm_num)⟩

/-! ## Claim C5 -/

/-- C5 counterexample: the claim says "the integer field coercion returns
12 for the input 12.0" for every cited variant, but the `safe_int` of
utils.py and of ingest/utils.py parse with plain `int()` and return an
absent value on "12.0". -/
theorem safe_int_float_tolerance_counterexample :
    utils_safe_int (some "12.0") = none ∧
    ingest_utils_safe_int (some "12.0") = none ∧
    ¬ utils_safe_int (some "12.0") = some 12 := by
  refine ⟨by decide, by decide, by decide⟩

/-- C5 amended: only pp_xml.py's `safe_int` parses via a float-tolerant
route and maps "12.0" to 12; the utils.py and ingest/utils.py variants use
plain `int()` and yield an absent value on "12.0".  All three variants
yield an absent value (never zero, never an error) on `None`, on
whitespace-only input and on non-numeric input. -/
theorem safe_int_coercion_amended :
    pp_safe_int (some "12.0") = some 12 ∧
    utils_safe_int (some "12.0") = none ∧
    ingest_utils_safe_int (some "12.0") = none ∧
    pp_safe_int none = none ∧
    utils_safe_int none = none ∧
    ingest_utils_safe_int none = none ∧
    (∀ s, pyStrip s = "" →
      pp_safe_int (some s) = none ∧ utils_safe_int (some s) = none ∧
      ingest_utils_safe_int (some s) = none) ∧
    pp_safe_int (some "abc") = none ∧
    utils_safe_int (some "abc") = none ∧
    ingest_utils_safe_int (some "abc") = none := by
  have h12 : pp_safe_int (some "12.0") = some 12 := by
    have hl : pyFloatLit "12.0" = some (.dec ⟨false, 12, 0, 1, 0⟩) := by decide
    have hv : floatPartsVal ⟨false, 12, 0, 1, 0⟩ = 12 := by norm_num [floatPartsVal]
    have hs : pyStrip "12.0" = "12.0" := by decide
    have htr : ratTrunc 12 = 12 := by simp [ratTrunc]
    simp only [pp_safe_int, hs, pyFloatOfString, hl]
    rw [if_neg (by decide)]
    simp [hv, htr]
  refine ⟨h12, by decide, by decide, rfl, rfl, rfl, fun s h => ⟨?_, ?_, ?_⟩,
    by decide, by decide, by decide⟩
  · simp [pp_safe_int, h]
  · simp [utils_safe_int, h]
  · simp [ingest_utils_safe_int, h]

/-- Witness for C5 (amended) at the whitespace-only input. -/
theorem safe_int_coercion_amended_witness :
    pyStrip "  " = "" ∧ pp_safe_int (some "  ") = none :=
  ⟨by decide, ((safe_int_coercion_amended.2.2.2.2.2.2.1 "  " (by decide)).1)⟩

/-! ## Claim C6 -/

/-- The chart filename convention: a stem of at least 11 characters whose
positions 3-10 are eight digits. -/
def chartNameMatches (name : String) : Bool :=
  let stem := (pyStem name).toList
  decide (11 ≤ stem.length) && !((stem.drop 3).take 8).isEmpty &&
    ((stem.drop 3).take 8).all Char.isDigit

/-- C6: filename metadata extraction maps `kee20231014tch.xml` to track
KEE and date 2023-10-14; a filename matching no supported convention
yields `(None, None)` (and extraction is a total function, so it never
raises): the chart variant when the stem fails its length / digit
convention, the pp variant when the date regex finds no valid match and
neither track regex matches. -/
theorem filename_metadata_extraction :
    chart_defaults_from_filename "kee20231014tch.xml" = (some "KEE", some "2023-10-14") ∧
    (∀ name, ¬ chartNameMatches name →
      chart_defaults_from_filename name = (none, none)) ∧
    (∀ name, pp_date_from_name name = none → trackSearch1 name.toList = none →
      trackSearch2 name.toList = none →
      pp_defaults_from_filename name = (none, none)) := by
  refine ⟨by decide, fun name h => ?_, fun name hd h1 h2 => ?_⟩
  · simp only [chartNameMatches, Bool.and_eq_true, decide_eq_true_eq,
      Bool.not_eq_true', List.isEmpty_iff] at h
    simp only [chart_defaults_from_filename]
    by_cases hlen : 11 ≤ ((pyStem name).toList).length
    · rw [if_pos hlen]
      rw [if_neg]
      intro hc
      refine h ⟨⟨hlen, ?_⟩, hc.2⟩
      rw [Bool.eq_false_iff]
      exact fun hh => hc.1 (List.isEmpty_iff.mp hh)
    · rw [if_neg hlen]
  · simp only [pp_defaults_from_filename, hd, h1, h2]

/-- Witness for C6 at a filename matching no convention. -/
theorem filename_metadata_extraction_witness :
    chart_defaults_from_filename "zz.xml" = (none, none) ∧
    pp_defaults_from_filename "zz.xml" = (none, none) :=
  ⟨filename_metadata_extraction.2.1 "zz.xml" (by decide),
   filename_metadata_extraction.2.2 "zz.xml" (by decide) (by decide) (by decide)⟩

/-! ## Claim C10 -/

/-- chart-style `first_text` never returns an empty string. -/
lemma first_text_ne_empty (e : XmlElem) :
    ∀ (ns : List String) (v : String), first_text e ns = some v → v ≠ "" := by
  intro ns
  induction ns with
  | nil => intro v h; simp [first_text] at h
  | cons nm rest ih =>
    intro v h
    unfold first_text at h
    cases hc : childTexts e nm with
    | nil => rw [hc] at h; exact ih v h
    | cons t ts =>
      rw [hc] at h
      dsimp only at h
      by_cases hv : pyStrip t = ""
      · rw [if_pos hv] at h; exact ih v h
      · rw [if_neg hv] at h
        cases h
        exact hv

/-- pp-style deep `first_text` over two-step paths never returns an empty
string. -/
lemma pp_first_text_deep2_ne_empty (e : XmlElem) :
    ∀ (ps : List (String × String)) (v : String),
      pp_first_text_deep2 e ps = some v → v ≠ "" := by
  intro ps
  induction ps with
  | nil => intro v h; simp [pp_first_text_deep2] at h
  | cons p rest ih =>
    intro v h
    unfold pp_first_text_deep2 at h
    cases hc : etFindtextDeep2 e p.1 p.2 with
    | none => rw [hc] at h; exact ih v h
    | some t =>
      rw [hc] at h
      dsimp only at h
      by_cases hv : pyStrip t = ""
      · rw [if_pos hv] at h; exact ih v h
      · rw [if_neg hv] at h
        cases h
        exact hv

/-- C10: within the pp extractor the two meet-level fields use opposite
precedence: the race date prefers the filename-derived default over the
document value (the document value is used only when no non-empty default
exists), while the track code prefers the document value; the chart
extractor prefers the document value for both fields. -/
theorem meet_field_precedence :
    (∀ (root : XmlElem) (d : String), d ≠ "" →
      pp_meet_date root (some d) = pyStrip d) ∧
    (∀ (root : XmlElem) (v : String),
      pp_first_text_deep1 root ["RaceDate", "RACE_DATE"] = some v →
      pp_meet_date root none = pyStrip v) ∧
    (∀ (root : XmlElem) (dt : Option String) (v : String),
      pp_first_text_deep2 root [("Track", "Code"), ("TRACK", "CODE")] = some v →
      pp_meet_track root dt = pyStrip v) ∧
    (∀ (root : XmlElem) (dt : Option String) (v : String),
      first_text root ["TrackCode", "TRACK_CODE"] = some v →
      chart_meet_track root dt = some v) ∧
    (∀ (root : XmlElem) (dd : Option String) (v : String),
      first_text root ["RaceDate", "RACE_DATE"] = some v →
      chart_meet_date root dd = some v) := by
  refine ⟨fun root d hd => ?_, fun root v hv => ?_, fun root dt v hv => ?_,
    fun root dt v hv => ?_, fun root dd v hv => ?_⟩
  · simp [pp_meet_date, pyOrStr, hd]
  · simp [pp_meet_date, pyOrStr, hv]
  · have hne := pp_first_text_deep2_ne_empty root _ v hv
    simp [pp_meet_track, pyOrStr, hv, hne]
  · have hne := first_text_ne_empty root _ v hv
    simp [chart_meet_track, pyOrStr, hv, hne]
  · have hne := first_text_ne_empty root _ v hv
    simp [chart_meet_date, pyOrStr, hv, hne]

/-- The concrete meet-level document used by the C10 witness: it embeds
both a track code and a race date in each extractor's dialect. -/
def meetDoc : XmlElem :=
  .mk "Doc" [] none (.ofList
    [.mk "Track" [] none (.ofList [.mk "Code" [] (some "KEE") .nil]),
     .mk "RaceDate" [] (some "2023-01-02") .nil,
     .mk "TrackCode" [] (some "AQU") .nil])

/-- Witness for C10 at a concrete document and filename defaults. -/
theorem meet_field_precedence_witness :
    pp_meet_date meetDoc (some "2024-05-06") = pyStrip "2024-05-06" ∧
    pp_meet_date meetDoc none = pyStrip "2023-01-02" ∧
    pp_meet_track meetDoc (some "SAR") = pyStrip "KEE" ∧
    chart_meet_track meetDoc (some "SAR") = some "AQU" ∧
    chart_meet_date meetDoc (some "2024-05-06") = some "2023-01-02" :=
  ⟨meet_field_precedence.1 meetDoc "2024-05-06" (by decide),
   meet_field_precedence.2.1 meetDoc "2023-01-02" (by decide),
   meet_field_precedence.2.2.1 meetDoc (some "SAR") "KEE" (by decide),
   meet_field_precedence.2.2.2.1 meetDoc (some "SAR") "AQU" (by decide),
   meet_field_precedence.2.2.2.2 meetDoc (some "2024-05-06") "2023-01-02" (by decide)⟩

/-! ## Claim C8 -/

/-- Boolean emptiness versus propositional emptiness. -/
lemma bnot_isEmpty_iff_ne_nil {α : Type} (l : List α) : (!l.isEmpty) = true ↔ l ≠ [] := by
  cases l <;> simp

/-- C8: the chart staging writer writes only columns present in both the
wanted list and the actual destination columns (and binds payload keys only
from those columns); a batch is attempted for an entity type exactly when
its rows, its resolved column list and its resolved key-column list are all
non-empty; when no key column is available the whole batch for that entity
type is skipped (the writer is a total function, so skipping raises no
error). -/
theorem staging_writer_column_discipline {α : Type}
    (race_actual entry_actual : List String) (fid : α)
    (race_rows entry_rows : List (List (String × α))) :
    ((upsert_staging race_actual entry_actual fid race_rows entry_rows).1.isSome ↔
      race_rows ≠ [] ∧ chart_race_cols race_actual ≠ [] ∧
        chart_race_pk race_actual ≠ []) ∧
    ((upsert_staging race_actual entry_actual fid race_rows entry_rows).2.isSome ↔
      entry_rows ≠ [] ∧ chart_entry_cols entry_actual ≠ [] ∧
        chart_entry_pk entry_actual ≠ []) ∧
    (∀ stmt, (upsert_staging race_actual entry_actual fid race_rows entry_rows).1 =
        some stmt →
      (∀ c ∈ stmt.cols, c ∈ chart_race_wanted ∧ c ∈ race_actual) ∧
      (∀ row ∈ stmt.payload, ∀ kv ∈ row, kv.1 ∈ stmt.cols)) ∧
    (∀ stmt, (upsert_staging race_actual entry_actual fid race_rows entry_rows).2 =
        some stmt →
      (∀ c ∈ stmt.cols, c ∈ chart_entry_wanted ∧ c ∈ entry_actual) ∧
      (∀ row ∈ stmt.payload, ∀ kv ∈ row, kv.1 ∈ stmt.cols)) ∧
    (chart_race_pk race_actual = [] →
      (upsert_staging race_actual entry_actual fid race_rows entry_rows).1 = none) ∧
    (chart_entry_pk entry_actual = [] →
      (upsert_staging race_actual entry_actual fid race_rows entry_rows).2 = none) := by
  have hmemfilter : ∀ (wanted actual : List String) (c : String),
      c ∈ wanted.filter (fun x => x ∈ actual) → c ∈ wanted ∧ c ∈ actual := by
    intro wanted actual c hc
    have := List.mem_filter.mp hc
    exact ⟨this.1, by simpa using this.2⟩
  have hpayload : ∀ (cols : List String) (rows : List (List (String × α))),
      ∀ row ∈ rows.map (filter_to_cols cols), ∀ kv ∈ row, kv.1 ∈ cols := by
    intro cols rows row hrow kv hkv
    rcases List.mem_map.mp hrow with ⟨r0, _, hr0⟩
    subst hr0
    have := List.mem_filter.mp hkv
    simpa using this.2
  refine ⟨?_, ?_, ?_, ?_, ?_, ?_⟩
  · simp only [upsert_staging]
    split
    · next h =>
      simp only [Option.isSome_some, true_iff]
      simp only [Bool.and_eq_true, bnot_isEmpty_iff_ne_nil] at h
      exact ⟨h.1.1, h.1.2, h.2⟩
    · next h =>
      simp only [Option.isSome_none, Bool.false_eq_true, false_iff]
      intro hc
      exact h (by
        simp only [Bool.and_eq_true, bnot_isEmpty_iff_ne_nil]
        exact ⟨⟨hc.1, hc.2.1⟩, hc.2.2⟩)
  · simp only [upsert_staging]
    split
    · next h =>
      simp only [Option.isSome_some, true_iff]
      simp only [Bool.and_eq_true, bnot_isEmpty_iff_ne_nil] at h
      exact ⟨h.1.1, h.1.2, h.2⟩
    · next h =>
      simp only [Option.isSome_none, Bool.false_eq_true, false_iff]
      intro hc
      exact h (by
        simp only [Bool.and_eq_true, bnot_isEmpty_iff_ne_nil]
        exact ⟨⟨hc.1, hc.2.1⟩, hc.2.2⟩)
  · intro stmt hst
    simp only [upsert_staging] at hst
    split at hst
    · cases hst
      exact ⟨fun c hc => hmemfilter _ _ c hc, hpayload _ _⟩
    · cases hst
  · intro stmt hst
    simp only [upsert_staging] at hst
    split at hst
    · cases hst
      exact ⟨fun c hc => hmemfilter _ _ c hc, hpayload _ _⟩
    · cases hst
  · intro hpk
    simp only [upsert_staging, hpk]
    simp
  · intro hpk
    simp only [upsert_staging, hpk]
    simp

/-- Witness for C8: with all four race key columns present the race batch
executes; with an empty destination column set the entry batch is
skipped. -/
theorem staging_writer_column_discipline_witness :
    (upsert_staging ["source_file_id", "track_code", "race_date", "race_number"] []
      (7 : Int) [[("track_code", (3 : Int))]] []).1.isSome = true ∧
    (upsert_staging ["source_file_id", "track_code", "race_date", "race_number"] []
      (7 : Int) [[("track_code", (3 : Int))]] []).2 = none :=
  ⟨(staging_writer_column_discipline _ _ _ _ _).1.mpr
      ⟨by decide, by decide, by decide⟩,
   (staging_writer_column_discipline
      ["source_file_id", "track_code", "race_date", "race_number"] [] (7 : Int)
      [[("track_code", (3 : Int))]] []).2.2.2.2.2 (by decide)⟩

/-! ## Claim C4 -/

/-- Length of a `filterMap` equals the count of inputs it keeps. -/
lemma length_filterMap_eq_countP {α β : Type} (f : α → Option β) (l : List α) :
    (l.filterMap f).length = l.countP (fun a => (f a).isSome) := by
  induction l with
  | nil => rfl
  | cons a t ih =>
    cases hf : f a <;>
      simp [List.filterMap_cons, hf, List.countP_cons, ih]

/-- A pp race block exists exactly when the race number resolves. -/
lemma pp_race_block_isSome (t r : String) (race : XmlElem) :
    (pp_race_block t r race).isSome = (pp_safe_int (pp_rnum_text race)).isSome := by
  unfold pp_race_block
  cases pp_safe_int (pp_rnum_text race) <;> simp

/-- A document whose single race element carries no race number in any
recognized tag or attribute. -/
def ppNoNumDoc : XmlElem :=
  .mk "Doc" [] none (.ofList
    [.mk "RACE" [] none (.ofList [.mk "Surface" [] (some "D") .nil])])

/-- C4 counterexample: the claim says a race element with no resolvable
race number is assigned its 1-based ordinal, for both extractors; but the
pp extractor drops such a race entirely — on a document whose one race
element has no race number, the pp race output is empty rather than
containing a row numbered 1. -/
theorem race_number_fallback_counterexample :
    (findall ppNoNumDoc ["Race", "RACE"]).length = 1 ∧
    (emit_rows_pp ppNoNumDoc none none).race = [] :=
  ⟨by decide, by decide⟩

/-- C4 amended: the chart extractor assigns the 1-based ordinal of the
race element when no race-number field resolves (and each emitted race row
is built from its element's ordinal, so race-level extraction is total and
never errors); the pp extractor instead silently drops every race whose
number does not resolve — its race output has exactly one row per race
element with a resolvable number. -/
theorem race_number_fallback_amended :
    (∀ (tcode rdate : Option String) (idx : Int) (race : XmlElem),
      utils_safe_int (chart_rnum_text race) = none →
      (chart_race_row tcode rdate idx race).race_number = idx) ∧
    (∀ (root : XmlElem) (dt dd : Option String),
      (emit_rows_chart root dt dd).race =
        (findall root ["Race", "RACE"]).enum.map
          (fun p => chart_race_row (chart_meet_track root dt)
            (chart_meet_date root dd) ((p.1 : Int) + 1) p.2)) ∧
    (∀ (root : XmlElem) (dt dd : Option String),
      (emit_rows_pp root dt dd).race.length =
        (findall root ["Race", "RACE"]).countP
          (fun r => (pp_safe_int (pp_rnum_text r)).isSome)) := by
  refine ⟨fun tcode rdate idx race h => ?_, fun root dt dd => ?_, fun root dt dd => ?_⟩
  · simp [chart_race_row, h]
  · simp only [emit_rows_chart, List.map_map]
    rfl
  · simp only [emit_rows_pp, List.length_map,
      length_filterMap_eq_countP]
    exact List.countP_congr (fun race _ => by rw [pp_race_block_isSome])

/-- A race element with no race-number field at all. -/
def noNumRace : XmlElem := .mk "Race" [] none .nil

/-- Witness for C4 (amended): the chart extractor assigns the passed
ordinal 3 to a race with no race-number field. -/
theorem race_number_fallback_amended_witness :
    utils_safe_int (chart_rnum_text noNumRace) = none ∧
    (chart_race_row none none 3 noNumRace).race_number = 3 :=
  ⟨by decide, race_number_fallback_amended.1 none none 3 noNumRace (by decide)⟩

/-! ## Claim C2 -/

/-- A pp document with one race (numbered 1) whose single entrant carries
the rejected program number "1D". -/
def ppRejectDoc : XmlElem :=
  .mk "Doc" [] none (.ofList
    [.mk "Race" [] none (.ofList
      [.mk "Number" [] (some "1") .nil,
       .mk "Starter" [] none (.ofList [.mk "Program" [] (some "1D") .nil])])])

/-- C2 counterexample: the claim's canonical form for "01" is "1", but the
code keeps the matched text verbatim, so "01" normalizes to "01"; and the
claim's "rejected input causes that one entrant record to be dropped" fails
for the pp extractor, which keeps the entrant row with an absent program
number. -/
theorem program_number_normalization_counterexample :
    progNorm "01" = some "01" ∧
    progNorm "01" ≠ some "1" ∧
    (emit_rows_pp ppRejectDoc none none).entry.map PPEntryRow.program_number =
      [none] :=
  ⟨by decide, by decide, by decide⟩

/-- C2 amended: normalization accepts exactly one or two digits (the first
may be zero) plus an optional trailing letter A-C, and canonicalizes an
accepted input to its whitespace-stripped text verbatim ("1", "01", "1A",
"12B" stay as they are; "1D" and "abc" are rejected).  In the chart
extractor a starter whose program text is missing or rejected yields no
entry row, while the race row and each accepted sibling's rows are emitted
independently (the entry rows of a race are exactly the per-starter
filterMap of the two scans).  In the pp extractor a rejected program
number leaves the entrant row in place with an absent program number, and
every entry node of a kept race yields exactly one row. -/
theorem program_number_normalization_amended :
    (∀ p t, progNorm p = some t → t = pyStrip p) ∧
    progNorm "1" = some "1" ∧
    progNorm "01" = some "01" ∧
    progNorm "1A" = some "1A" ∧
    progNorm "12B" = some "12B" ∧
    progNorm "1D" = none ∧
    progNorm "abc" = none ∧
    (∀ tc rd rn s, chart_scan1_row tc rd rn s = none ↔
      chart_prog1_text s = none ∨
        ∃ p, chart_prog1_text s = some p ∧ progNorm p = none) ∧
    (∀ tc rd rn s, chart_scan2_row tc rd rn s = none ↔
      chart_prog2_text s = none ∨
        ∃ p, chart_prog2_text s = some p ∧ progNorm p = none) ∧
    (∀ root dt dd, (emit_rows_chart root dt dd).race.length =
      (findall root ["Race", "RACE"]).length) ∧
    (∀ tc rd idx race, (chart_race_block tc rd idx race).2 =
      (chart_scan1_starters race).filterMap
        (chart_scan1_row tc rd (chart_race_row tc rd idx race).race_number) ++
      (chart_scan2_starters race).filterMap
        (chart_scan2_row tc rd (chart_race_row tc rd idx race).race_number)) ∧
    (∀ t r rn e p, pp_prog_raw e = some p → progNorm p = none →
      (pp_entry_row t r rn e).program_number = none) ∧
    (∀ t r race pr, pp_race_block t r race = some pr →
      pr.2.length = (pp_entry_nodes race).length) := by
  refine ⟨?_, by decide, by decide, by decide, by decide, by decide, by decide,
    ?_, ?_, ?_, fun tc rd idx race => rfl, ?_, ?_⟩
  · intro p t h
    rw [show progNorm p = if progCore (pyStrip p).toList then some (pyStrip p)
      else none from rfl] at h
    split at h
    · cases h; rfl
    · cases h
  · intro tc rd rn s
    cases h1 : chart_prog1_text s with
    | none => simp [chart_scan1_row, h1]
    | some p =>
      cases h2 : progNorm p with
      | none => simp [chart_scan1_row, h1, h2]
      | some t => simp [chart_scan1_row, h1, h2]
  · intro tc rd rn s
    cases h1 : chart_prog2_text s with
    | none => simp [chart_scan2_row, h1]
    | some p =>
      cases h2 : progNorm p with
      | none => simp [chart_scan2_row, h1, h2]
      | some t => simp [chart_scan2_row, h1, h2]
  · intro root dt dd
    simp [emit_rows_chart]
  · intro t r rn e p h1 h2
    simp [pp_entry_row, h1, h2]
  · intro t r race pr h
    unfold pp_race_block at h
    split at h
    · cases h
    · cases h
      simp

/-- A chart starter whose program number is the rejected "1D". -/
def rejStarter : XmlElem :=
  .mk "Starter" [] none (.ofList [.mk "ProgramNumber" [] (some "1D") .nil])

/-- Witness for C2 (amended): the canonical form of " 1A " is its stripped
text, and a chart starter with program text "1D" yields no entry row. -/
theorem program_number_normalization_amended_witness :
    "1A" = pyStrip " 1A " ∧
    chart_scan1_row none none 1 rejStarter = none :=
  ⟨program_number_normalization_amended.1 " 1A " "1A" (by decide),
   (program_number_normalization_amended.2.2.2.2.2.2.2.1 none none 1 rejStarter).mpr
     (Or.inr ⟨"1D", by decide, by decide⟩)⟩

/-! ## Claim C9 -/

/-- Acceptance of a starter by the first scan: its program text resolves
and normalizes. -/
def scan1_accepts (s : XmlElem) : Bool :=
  ((chart_prog1_text s).bind progNorm).isSome

/-- Acceptance of a starter by the second scan. -/
def scan2_accepts (s : XmlElem) : Bool :=
  ((chart_prog2_text s).bind progNorm).isSome

/-- A first-scan row is emitted exactly when the starter is accepted. -/
lemma chart_scan1_row_isSome (tc rd : Option String) (rn : Int) (s : XmlElem) :
    (chart_scan1_row tc rd rn s).isSome = scan1_accepts s := by
  unfold chart_scan1_row scan1_accepts
  cases chart_prog1_text s with
  | none => simp
  | some p => cases h : progNorm p <;> simp [h]

/-- A second-scan row is emitted exactly when the starter is accepted. -/
lemma chart_scan2_row_isSome (tc rd : Option String) (rn : Int) (s : XmlElem) :
    (chart_scan2_row tc rd rn s).isSome = scan2_accepts s := by
  unfold chart_scan2_row scan2_accepts
  cases chart_prog2_text s with
  | none => simp
  | some p => cases h : progNorm p <;> simp [h]

/-- `findall` distributes over name-list concatenation. -/
lemma findall_append (e : XmlElem) (ns1 ns2 : List String) :
    findall e (ns1 ++ ns2) = findall e ns1 ++ findall e ns2 := by
  simp [findall]

/-- When a race has no `Entries` / `Results` / `HorseList` containers and
its `Starters` containers hold only `Starter`-tagged elements, the two
starter scans select exactly the same element list. -/
lemma scan_starters_eq (race : XmlElem)
    (h1 : (findall race
      ["Entries", "ENTRIES", "Results", "RESULTS", "HorseList", "HORSELIST"]).isEmpty
        = true)
    (h2 : ∀ p ∈ findall race ["Starters", "STARTERS"],
      (findall p ["Entry", "ENTRY", "Horse", "HORSE"]).isEmpty = true) :
    chart_scan1_starters race = chart_scan2_starters race := by
  have h1' := List.isEmpty_iff.mp h1
  unfold chart_scan1_starters chart_scan2_starters
  rw [show ["Starters", "STARTERS", "Entries", "ENTRIES", "Results", "RESULTS",
      "HorseList", "HORSELIST"] = ["Starters", "STARTERS"] ++
      ["Entries", "ENTRIES", "Results", "RESULTS", "HorseList", "HORSELIST"] from rfl,
    findall_append, h1', List.append_nil]
  refine List.flatMap_congr (fun p hp => ?_)
  have h2' := List.isEmpty_iff.mp (h2 p hp)
  rw [show ["Starter", "STARTER", "Entry", "ENTRY", "Horse", "HORSE"] =
      ["Starter", "STARTER"] ++ ["Entry", "ENTRY", "Horse", "HORSE"] from rfl,
    findall_append, h2', List.append_nil]

/-- C9: when the chart document's starter lists live under `Starters`
containers (no `Entries` / `Results` / `HorseList` variants, and only
`Starter`-tagged children), and each starter's program number is resolved
identically by the two scans' alias lists, `emit_rows_chart` emits every
accepted starter's entry row twice — the entry list has exactly two rows
per accepted starter. -/
theorem chart_double_starter_scan (root : XmlElem) (dt dd : Option String)
    (h1 : ∀ race ∈ findall root ["Race", "RACE"],
      (findall race
        ["Entries", "ENTRIES", "Results", "RESULTS", "HorseList", "HORSELIST"]).isEmpty
          = true)
    (h2 : ∀ race ∈ findall root ["Race", "RACE"],
      ∀ p ∈ findall race ["Starters", "STARTERS"],
        (findall p ["Entry", "ENTRY", "Horse", "HORSE"]).isEmpty = true)
    (h3 : ∀ race ∈ findall root ["Race", "RACE"],
      ∀ s ∈ chart_scan2_starters race, scan1_accepts s = scan2_accepts s) :
    (emit_rows_chart root dt dd).entry.length =
      2 * ((findall root ["Race", "RACE"]).map
        (fun race => (chart_scan2_starters race).countP scan2_accepts)).sum := by
  simp only [emit_rows_chart, List.length_flatMap, List.map_map]
  have hblock : ∀ p ∈ (findall root ["Race", "RACE"]).enum,
      ((List.length ∘ Prod.snd) ∘ fun q =>
        chart_race_block (chart_meet_track root dt) (chart_meet_date root dd)
          ((q.1 : Int) + 1) q.2) p =
      2 * (chart_scan2_starters p.2).countP scan2_accepts := by
    intro p hp
    have hmem : p.2 ∈ findall root ["Race", "RACE"] := by
      have := List.mem_map_of_mem Prod.snd hp
      rwa [List.enum_eq_enumFrom, List.enumFrom_map_snd] at this
    have hs := scan_starters_eq p.2 (h1 p.2 hmem) (h2 p.2 hmem)
    simp only [Function.comp_apply, chart_race_block, List.length_append,
      length_filterMap_eq_countP, hs]
    have e1 : (chart_scan2_starters p.2).countP
        (fun s => (chart_scan1_row (chart_meet_track root dt) (chart_meet_date root dd)
          (chart_race_row (chart_meet_track root dt) (chart_meet_date root dd)
            ((p.1 : Int) + 1) p.2).race_number s).isSome) =
        (chart_scan2_starters p.2).countP scan2_accepts :=
      List.countP_congr (fun s hsm => by
        rw [chart_scan1_row_isSome, h3 p.2 hmem s hsm])
    have e2 : (chart_scan2_starters p.2).countP
        (fun s => (chart_scan2_row (chart_meet_track root dt) (chart_meet_date root dd)
          (chart_race_row (chart_meet_track root dt) (chart_meet_date root dd)
            ((p.1 : Int) + 1) p.2).race_number s).isSome) =
        (chart_scan2_starters p.2).countP scan2_accepts :=
      List.countP_congr (fun s hsm => by rw [chart_scan2_row_isSome])
    rw [e1, e2]
    omega
  rw [List.map_congr_left hblock]
  rw [show ((findall root ["Race", "RACE"]).enum.map fun p =>
      2 * (chart_scan2_starters p.2).countP scan2_accepts) =
    ((findall root ["Race", "RACE"]).enum.map Prod.snd).map
      (fun race => 2 * (chart_scan2_starters race).countP scan2_accepts) from by
    rw [List.map_map]
    rfl]
  rw [List.enum_eq_enumFrom, List.enumFrom_map_snd]
  induction findall root ["Race", "RACE"] with
  | nil => rfl
  | cons r t ih => simp only [List.map_cons, List.sum_cons, ih, Nat.mul_add]

/-- The concrete chart document of the C9 witness: one race, one
`Starters` container, two starters with accepted program numbers. -/
def c9Doc : XmlElem :=
  .mk "Chart" [] none (.ofList
    [.mk "Race" [] none (.ofList
      [.mk "RaceNumber" [] (some "1") .nil,
       .mk "Starters" [] none (.ofList
         [.mk "Starter" [] none
            (.ofList [.mk "ProgramNumber" [] (some "1") .nil]),
          .mk "Starter" [] none
            (.ofList [.mk "ProgramNumber" [] (some "2") .nil])])])])

/-- Witness for C9: on the concrete document both starters are emitted
twice — four entry rows for two starters. -/
theorem chart_double_starter_scan_witness :
    (emit_rows_chart c9Doc none none).entry.length =
      2 * ((findall c9Doc ["Race", "RACE"]).map
        (fun race => (chart_scan2_starters race).countP scan2_accepts)).sum ∧
    (emit_rows_chart c9Doc none none).entry.length = 4 :=
  ⟨chart_double_starter_scan c9Doc none none (by decide) (by decide) (by decide),
   by decide⟩
